import Mathlib

/-!
# A verification model of the `my-first-lisp` evaluator

This file gives a shallow embedding, in Lean, of the Rust interpreter found in
`src/ast.rs` and `src/eval.rs`, and proves properties of the evaluator against
it.

Modelling conventions:

* `i64` is modelled as `Int` together with an explicit two's-complement
  wrap-around (`wrap64`) at every arithmetic step; Rust's `/` on `i64`, which
  aborts the process on a zero divisor or on `i64::MIN / -1`, is modelled by
  the `Outcome.abort` result.
* `f64` is modelled as `Rat` (exact rationals): the claims treated here depend
  only on which *type* of value an expression produces and on comparisons of
  small literals, never on IEEE-754 rounding, infinities or NaN.
* `HashMap<Symbol, Rc<Value>>` is modelled observationally as an association
  list where `insert` conses at the front and `get` takes the first match;
  this has exactly the lookup/overwrite behaviour of the hash map.
* In the Rust code an environment's `outer` field is always a freshly cloned
  snapshot (`Rc::new(RefCell::new(self.clone()))`) that is subsequently only
  read, never mutated through; an environment is therefore faithfully
  represented as a pure tree value.
* Rust recursion depth is modelled by an explicit `fuel` parameter that every
  recursive call decrements; running out of fuel yields
  `Outcome.stackOverflow`, the analogue of exhausting the host call stack.
* Each evaluator result additionally carries a ghost Boolean `usedDef`,
  recording whether the `def` builtin was applied anywhere during the
  evaluation.  It is pure instrumentation used to state an invariant about
  environment mutation: no other component of any result depends on it, and
  erasing it leaves a verbatim transcription of the Rust functions.
-/

namespace Lisp

/-- `ast::Symbol` (src/ast.rs): `pub type Symbol = String;`. -/
abbrev Symbol := String

/-- `ast::Expr` (src/ast.rs): the expression tree produced by the parser.
`Float` carries a `Rat`, our model of `f64`. -/
inductive Expr where
  | Bool (b : Bool)
  | Integer (i : Int)
  | Float (f : Rat)
  | Symbol (s : Symbol)
  | List (l : List Expr)


/-- The nine native functions installed by `Env::default` (src/eval.rs).
In Rust a `Func::BuiltIn` holds a function pointer; there are exactly nine
such pointers, so the pointer is modelled as this closed enumeration. -/
inductive BuiltinFn where
  | def_
  | func
  | ifdef
  | equals
  | addition
  | subtraction
  | multiplication
  | division
  | less_than


/-- `eval::Func` (src/eval.rs).  Note that `UserDefined` stores only the
parameter list and the body: the Rust closure value captures no
environment. -/
inductive Func where
  | BuiltIn (name : String) (fn : BuiltinFn)
  | UserDefined (params : List Expr) (body : Expr)


/-- `eval::Value` (src/eval.rs). -/
inductive Value where
  | Bool (b : Bool)
  | Integer (i : Int)
  | Float (f : Rat)
  | List (l : List Value)
  | Func (f : Func)


/-- `eval::Env` (src/eval.rs): a symbol table plus an optional outer
environment.  `data` models the `HashMap` as an association list whose first
match wins. -/
inductive Env where
  | mk (data : List (Symbol × Value)) (outer : Option Env)


/-- The symbol table of an environment. -/
def Env.data : Env → List (Symbol × Value)
  | .mk d _ => d

/-- The outer link of an environment. -/
def Env.outer : Env → Option Env
  | .mk _ o => o

/-- `HashMap::get` on the modelled table: first match wins. -/
def lookupData : List (Symbol × Value) → Symbol → Option Value
  | [], _ => none
  | (k, v) :: rest, s => if k = s then some v else lookupData rest s

/-- `Env::insert` (src/eval.rs line 76): `HashMap::insert`, which overwrites
any existing binding for the key in this environment only. -/
def Env.insert : Env → Symbol → Value → Env
  | .mk d o, k, v => .mk ((k, v) :: d) o

mutual

/-- `Env::get` (src/eval.rs line 80): look up in this environment's own
table, delegating to the outer environment on a miss. -/
def Env.get : Env → Symbol → Option Value
  | .mk d o, k =>
    match lookupData d k with
    | some v => some v
    | none => getOuter o k

/-- The miss path of `Env::get`: `self.outer.as_ref()?.borrow().get(key)`
(the `?` turns an absent outer environment into `None`). -/
def getOuter : Option Env → Symbol → Option Value
  | none, _ => none
  | some out, k => out.get k

end

/-- The possible results of one evaluation, seen from the host process:
`ok`/`err` are the two sides of the Rust `Result`; `abort` is a Rust panic
(a fatal process abort, carrying the panic message); `stackOverflow` is
exhaustion of the host call stack, modelled as running out of fuel. -/
inductive Outcome where
  | ok (v : Value)
  | err (msg : String)
  | abort (msg : String)
  | stackOverflow


/-- The full result of an evaluation step: the outcome, the (possibly
mutated) current environment, and the ghost flag recording whether the `def`
builtin was applied during this evaluation. -/
structure EvalOut where
  out : Outcome
  env : Env
  usedDef : Bool


/-- Result of the parameter-binding loop of a user-defined call
(src/eval.rs lines 113-122): either the accumulated bindings or a
propagated failure. -/
inductive BindRes where
  | ok (binds : List (Symbol × Value))
  | fail (o : Outcome)


/-- Full result of the parameter-binding loop, threading the caller's
environment and the ghost flag. -/
structure BindOut where
  res : BindRes
  env : Env
  usedDef : Bool


/-- Merge a ghost flag into a sub-result. -/
def joinD (d : Bool) (r : EvalOut) : EvalOut :=
  ⟨r.out, r.env, d || r.usedDef⟩

mutual

/-- Rendering of `ast::Expr` (`impl Display for Expr`, src/ast.rs). -/
def fmtExpr : Expr → String
  | .Bool b => toString b
  | .Integer i => toString i
  | .Float f => toString f
  | .Symbol s => s
  | .List l => "(" ++ fmtExprList l ++ ")"

/-- Renders each list item followed by a space, as the Rust loop does. -/
def fmtExprList : List Expr → String
  | [] => ""
  | e :: rest => fmtExpr e ++ " " ++ fmtExprList rest

end

mutual

/-- Rendering of `eval::Value` (`impl Display for Value`, src/eval.rs). -/
def fmtValue : Value → String
  | .Bool b => toString b
  | .Integer i => toString i
  | .Float f => toString f
  | .List l => "(" ++ fmtValueList l ++ ")"
  | .Func (.BuiltIn name _) => "<built-in function '" ++ name ++ "'>"
  | .Func (.UserDefined _ _) => "function"

/-- Renders each list item followed by a space, as the Rust loop does. -/
def fmtValueList : List Value → String
  | [] => ""
  | v :: rest => fmtValue v ++ " " ++ fmtValueList rest

end

/-- Two's-complement wrap-around into the `i64` range. -/
def wrap64 (x : Int) : Int := (x + 2 ^ 63) % 2 ^ 64 - 2 ^ 63

/-- Rust `i64` addition (release profile: wrap-around, no abort). -/
def addI (a b : Int) : Except String Int := .ok (wrap64 (a + b))

/-- Rust `i64` subtraction (release profile: wrap-around, no abort). -/
def subI (a b : Int) : Except String Int := .ok (wrap64 (a - b))

/-- Rust `i64` multiplication (release profile: wrap-around, no abort). -/
def mulI (a b : Int) : Except String Int := .ok (wrap64 (a * b))

/-- Rust `i64` division: truncating, and the process aborts (in every build
profile) on a zero divisor or on `i64::MIN / -1`; the `Except.error` payload
is the Rust panic message. -/
def divI (a b : Int) : Except String Int :=
  if b = 0 then .error "attempt to divide by zero"
  else if a = -(2 ^ 63) ∧ b = -1 then .error "attempt to divide with overflow"
  else .ok (Int.tdiv a b)

/-- Rust `f64` addition, on the rational model of `f64`. -/
def addF (a b : Rat) : Rat := a + b

/-- Rust `f64` subtraction, on the rational model of `f64`. -/
def subF (a b : Rat) : Rat := a - b

/-- Rust `f64` multiplication, on the rational model of `f64`. -/
def mulF (a b : Rat) : Rat := a * b

/-- Rust `f64` division, on the rational model of `f64`.  Like `f64`
division (which yields an infinity or NaN on a zero divisor) it never
aborts; the value produced for a zero divisor is not relied upon by any
theorem below. -/
def divF (a b : Rat) : Rat := a / b

/-- `func` (src/eval.rs lines 133-145), the `fn` builtin: checks only that
there are exactly two arguments and that the first is a `List`; the entries
of that list are *not* inspected here.  It evaluates nothing and never
recurses, so it needs no fuel. -/
def func (env : Env) (args : List Expr) : EvalOut :=
  match args with
  | [a0, a1] =>
    match a0 with
    | .List params => ⟨.ok (.Func (.UserDefined params a1)), env, false⟩
    | _ => ⟨.err "...", env, false⟩
  | _ => ⟨.err "'fn' takes 2 arguments only", env, false⟩

mutual

/-- `Env::eval` (src/eval.rs lines 87-130).  The first argument is the fuel
(host stack budget); every recursive call decrements it. -/
def eval : Nat → Env → Expr → EvalOut
  | 0, env, _ => ⟨.stackOverflow, env, false⟩
  | n + 1, env, e =>
    match e with
    | .Bool b => ⟨.ok (.Bool b), env, false⟩
    | .Integer i => ⟨.ok (.Integer i), env, false⟩
    | .Float f => ⟨.ok (.Float f), env, false⟩
    | .Symbol sym =>
      match env.get sym with
      | some v => ⟨.ok v, env, false⟩
      | none => ⟨.err ("Unknown symbol '" ++ sym ++ "'"), env, false⟩
    | .List list =>
      match list with
      | [] => ⟨.err "List cannot be empty", env, false⟩
      | first :: rest =>
        match eval n env first with
        | ⟨.ok v, env1, d1⟩ =>
          match v with
          | .Func (.BuiltIn _ f) =>
            joinD d1
              (match f with
               | .def_ => def_ n env1 rest
               | .func => func env1 rest
               | .ifdef => ifdef n env1 rest
               | .equals => equals n env1 rest
               | .addition => arithmetic n "+" "addition" addI addF env1 rest
               | .subtraction => arithmetic n "-" "subtraction" subI subF env1 rest
               | .multiplication => arithmetic n "*" "multiplication" mulI mulF env1 rest
               | .division => arithmetic n "/" "division" divI divF env1 rest
               | .less_than => less_than n env1 rest)
          | .Func (.UserDefined params body) =>
            if params.length ≠ rest.length then
              ⟨.err "Incorrect number of arguments provided", env1, d1⟩
            else
              match bindParams n env1 params rest [] with
              | ⟨.ok binds, env2, d2⟩ =>
                let r := eval n (Env.mk binds (some env1)) body
                ⟨r.out, env2, d1 || d2 || r.usedDef⟩
              | ⟨.fail o, env2, d2⟩ => ⟨o, env2, d1 || d2⟩
          | _ => ⟨.err (fmtExpr first ++ " is not a function"), env1, d1⟩
        | r => r

/-- The parameter-binding loop of the `Func::UserDefined` branch
(src/eval.rs lines 113-122): for each parameter/argument pair, the parameter
must be a bare symbol (else the literal error `"..."`), the argument is
evaluated in the caller's environment, and the result is inserted into the
fresh call frame (modelled by consing onto `acc`). -/
def bindParams : Nat → Env → List Expr → List Expr → List (Symbol × Value) → BindOut
  | 0, env, _, _, _ => ⟨.fail .stackOverflow, env, false⟩
  | _ + 1, env, [], _, acc => ⟨.ok acc, env, false⟩
  | _ + 1, env, _ :: _, [], acc => ⟨.ok acc, env, false⟩
  | n + 1, env, p :: ps, a :: args, acc =>
    match p with
    | .Symbol s =>
      match eval n env a with
      | ⟨.ok v, env1, d1⟩ =>
        let r := bindParams n env1 ps args ((s, v) :: acc)
        ⟨r.res, r.env, d1 || r.usedDef⟩
      | ⟨o, env1, d1⟩ => ⟨.fail o, env1, d1⟩
    | _ => ⟨.fail (.err "..."), env, false⟩

/-- `def` (src/eval.rs lines 161-173): exactly two arguments; the first must
be a bare symbol (not evaluated); the second is evaluated in the current
environment and bound to that symbol there; returns the sentinel `0`.  The
ghost flag is `true` on every path: this builtin was applied. -/
def def_ : Nat → Env → List Expr → EvalOut
  | 0, env, _ => ⟨.stackOverflow, env, true⟩
  | n + 1, env, args =>
    match args with
    | [a0, a1] =>
      match a0 with
      | .Symbol name =>
        match eval n env a1 with
        | ⟨.ok v, env1, _⟩ => ⟨.ok (.Integer 0), env1.insert name v, true⟩
        | ⟨o, env1, _⟩ => ⟨o, env1, true⟩
      | _ => ⟨.err "First argument to 'def' must be a symbol", env, true⟩
    | _ => ⟨.err "'def' takes 2 arguments only", env, true⟩

/-- `ifdef` (src/eval.rs lines 147-159), the `if` builtin: exactly three
arguments; evaluates only the condition, which must yield a `Bool`, then
evaluates exactly one branch. -/
def ifdef : Nat → Env → List Expr → EvalOut
  | 0, env, _ => ⟨.stackOverflow, env, false⟩
  | n + 1, env, args =>
    match args with
    | [c, t, e] =>
      match eval n env c with
      | ⟨.ok (.Bool true), env1, d⟩ => joinD d (eval n env1 t)
      | ⟨.ok (.Bool false), env1, d⟩ => joinD d (eval n env1 e)
      | ⟨.ok _, env1, d⟩ =>
        ⟨.err "Condition in 'if' must evaluate to a boolean value", env1, d⟩
      | r => r
    | _ => ⟨.err "'if' takes 3 arguments", env, false⟩

/-- `equals` (src/eval.rs lines 216-261), the `=` builtin: at least two
arguments; the first argument's evaluated type (`Bool`, `Integer` or
`Float`) selects the comparison loop. -/
def equals : Nat → Env → List Expr → EvalOut
  | 0, env, _ => ⟨.stackOverflow, env, false⟩
  | n + 1, env, args =>
    if args.length < 2 then
      ⟨.err "Cannot apply '=' to fewer than 2 arguments", env, false⟩
    else
      match args with
      | first :: rest =>
        match eval n env first with
        | ⟨.ok (.Bool b), env1, d⟩ => joinD d (eqLoopB n b env1 rest)
        | ⟨.ok (.Integer i), env1, d⟩ => joinD d (eqLoopI n i env1 rest)
        | ⟨.ok (.Float f), env1, d⟩ => joinD d (eqLoopF n f env1 rest)
        | ⟨.ok _, env1, d⟩ =>
          ⟨.err "Must apply '=' to numeric or boolean types", env1, d⟩
        | r => r
      | [] => ⟨.err "Cannot apply '=' to fewer than 2 arguments", env, false⟩

/-- The boolean loop of `equals`: each item must evaluate to a `Bool`; the
loop breaks, returning `false`, at the first item unequal to the first
argument (the remaining items are then never evaluated). -/
def eqLoopB : Nat → Bool → Env → List Expr → EvalOut
  | 0, _, env, _ => ⟨.stackOverflow, env, false⟩
  | _ + 1, _, env, [] => ⟨.ok (.Bool true), env, false⟩
  | n + 1, b, env, a :: rest =>
    match eval n env a with
    | ⟨.ok (.Bool c), env1, d⟩ =>
      if b = c then joinD d (eqLoopB n b env1 rest)
      else ⟨.ok (.Bool false), env1, d⟩
    | ⟨.ok v, env1, d⟩ =>
      ⟨.err ("Non-boolean '" ++ fmtValue v ++ "' found in boolean equals"), env1, d⟩
    | r => r

/-- The integer loop of `equals`; see `eqLoopB`. -/
def eqLoopI : Nat → Int → Env → List Expr → EvalOut
  | 0, _, env, _ => ⟨.stackOverflow, env, false⟩
  | _ + 1, _, env, [] => ⟨.ok (.Bool true), env, false⟩
  | n + 1, i, env, a :: rest =>
    match eval n env a with
    | ⟨.ok (.Integer j), env1, d⟩ =>
      if i = j then joinD d (eqLoopI n i env1 rest)
      else ⟨.ok (.Bool false), env1, d⟩
    | ⟨.ok v, env1, d⟩ =>
      ⟨.err ("Non-integer '" ++ fmtValue v ++ "' found in integer equals"), env1, d⟩
    | r => r

/-- The float loop of `equals`; see `eqLoopB`. -/
def eqLoopF : Nat → Rat → Env → List Expr → EvalOut
  | 0, _, env, _ => ⟨.stackOverflow, env, false⟩
  | _ + 1, _, env, [] => ⟨.ok (.Bool true), env, false⟩
  | n + 1, f, env, a :: rest =>
    match eval n env a with
    | ⟨.ok (.Float g), env1, d⟩ =>
      if f = g then joinD d (eqLoopF n f env1 rest)
      else ⟨.ok (.Bool false), env1, d⟩
    | ⟨.ok v, env1, d⟩ =>
      ⟨.err ("Non-float '" ++ fmtValue v ++ "' found in float equals"), env1, d⟩
    | r => r

/-- The shared body of the four arithmetic builtins
(`arithmetic_builtin!`, src/eval.rs lines 175-214): `opStr` is the operator
token used in the zero-argument message, `nm` the Rust function name used in
the mismatch messages, `iop`/`fop` the integer and float operations.  The
first argument's evaluated type selects the integer or float fold; note that
the non-numeric message hard-codes `'+'` for all four operators, exactly as
the Rust macro does. -/
def arithmetic : Nat → String → String → (Int → Int → Except String Int) →
    (Rat → Rat → Rat) → Env → List Expr → EvalOut
  | 0, _, _, _, _, env, _ => ⟨.stackOverflow, env, false⟩
  | n + 1, opStr, nm, iop, fop, env, args =>
    match args with
    | [] => ⟨.err ("Cannot apply '" ++ opStr ++ "' to zero arguments"), env, false⟩
    | first :: rest =>
      match eval n env first with
      | ⟨.ok (.Integer i), env1, d⟩ => joinD d (intFold n nm iop i env1 rest)
      | ⟨.ok (.Float f), env1, d⟩ => joinD d (floatFold n nm fop f env1 rest)
      | ⟨.ok _, env1, d⟩ => ⟨.err "Must apply '+' to numeric types", env1, d⟩
      | r => r

/-- The integer fold of `arithmetic_builtin!`: left-folds `iop` over the
remaining arguments, each of which must evaluate to an `Integer`; an
`Except.error` from `iop` is a Rust panic and becomes `Outcome.abort`. -/
def intFold : Nat → String → (Int → Int → Except String Int) → Int → Env →
    List Expr → EvalOut
  | 0, _, _, _, env, _ => ⟨.stackOverflow, env, false⟩
  | _ + 1, _, _, acc, env, [] => ⟨.ok (.Integer acc), env, false⟩
  | n + 1, nm, iop, acc, env, a :: rest =>
    match eval n env a with
    | ⟨.ok (.Integer j), env1, d⟩ =>
      match iop acc j with
      | .ok r => joinD d (intFold n nm iop r env1 rest)
      | .error m => ⟨.abort m, env1, d⟩
    | ⟨.ok v, env1, d⟩ =>
      ⟨.err ("Non-integer '" ++ fmtValue v ++ "' found in integer " ++ nm), env1, d⟩
    | r => r

/-- The float fold of `arithmetic_builtin!`: left-folds `fop` over the
remaining arguments, each of which must evaluate to a `Float`. -/
def floatFold : Nat → String → (Rat → Rat → Rat) → Rat → Env → List Expr → EvalOut
  | 0, _, _, _, env, _ => ⟨.stackOverflow, env, false⟩
  | _ + 1, _, _, acc, env, [] => ⟨.ok (.Float acc), env, false⟩
  | n + 1, nm, fop, acc, env, a :: rest =>
    match eval n env a with
    | ⟨.ok (.Float g), env1, d⟩ => joinD d (floatFold n nm fop (fop acc g) env1 rest)
    | ⟨.ok v, env1, d⟩ =>
      ⟨.err ("Non-float '" ++ fmtValue v ++ "' found in float " ++ nm), env1, d⟩
    | r => r

/-- `less_than` (src/eval.rs lines 263-288), the `<` builtin: errors only on
fewer than two arguments; otherwise evaluates the first two arguments only
(any further arguments are ignored, unevaluated), requires them to be both
`Integer` or both `Float`, and returns strict less-than. -/
def less_than : Nat → Env → List Expr → EvalOut
  | 0, env, _ => ⟨.stackOverflow, env, false⟩
  | n + 1, env, args =>
    match args with
    | a0 :: a1 :: _ =>
      match eval n env a0 with
      | ⟨.ok (.Integer i), env1, d⟩ =>
        match eval n env1 a1 with
        | ⟨.ok (.Integer j), env2, d2⟩ => ⟨.ok (.Bool (decide (i < j))), env2, d || d2⟩
        | ⟨.ok v, env2, d2⟩ =>
          ⟨.err ("Cannot compare integer '" ++ fmtValue (.Integer i) ++
            "' with non-integer '" ++ fmtValue v ++ "'"), env2, d || d2⟩
        | r => joinD d r
      | ⟨.ok (.Float f), env1, d⟩ =>
        match eval n env1 a1 with
        | ⟨.ok (.Float g), env2, d2⟩ => ⟨.ok (.Bool (decide (f < g))), env2, d || d2⟩
        | ⟨.ok v, env2, d2⟩ =>
          ⟨.err ("Cannot compare float '" ++ fmtValue (.Float f) ++
            "' with non-float '" ++ fmtValue v ++ "'"), env2, d || d2⟩
        | r => joinD d r
      | ⟨.ok v, env1, d⟩ =>
        ⟨.err ("Cannot use value '" ++ fmtValue v ++ "' for comparison"), env1, d⟩
      | r => r
    | _ => ⟨.err "Cannot apply '<' to fewer than 2 arguments", env, false⟩

end

/-- The builtin table installed by `Env::default` (src/eval.rs lines 62-74):
each entry pairs the bound symbol with the builtin's display tag and native
function. -/
def defaultData : List (Symbol × Value) :=
  [("def", .Func (.BuiltIn "def" .def_)),
   ("fn", .Func (.BuiltIn "fn" .func)),
   ("if", .Func (.BuiltIn "if" .ifdef)),
   ("=", .Func (.BuiltIn "equals" .equals)),
   ("+", .Func (.BuiltIn "addition" .addition)),
   ("-", .Func (.BuiltIn "subtraction" .subtraction)),
   ("*", .Func (.BuiltIn "multiplication" .multiplication)),
   ("/", .Func (.BuiltIn "division" .division)),
   ("<", .Func (.BuiltIn "less_than" .less_than))]

/-- `Env::default` (src/eval.rs): a fresh root environment pre-populated
with the nine builtins. -/
def Env.default : Env := .mk defaultData none

/-- The environment produced by running, in a fresh default environment, the
three definitions of the spec's scoping scenario:
`(def x 5)`, `(def f (fn () x))`, `(def x 10)`. -/
def scenarioEnv : Env :=
  (eval 20 (eval 20 (eval 20 Env.default
      (.List [.Symbol "def", .Symbol "x", .Integer 5])).env
      (.List [.Symbol "def", .Symbol "f",
        .List [.Symbol "fn", .List [], .Symbol "x"]])).env
      (.List [.Symbol "def", .Symbol "x", .Integer 10])).env

/-- An outcome that, if it is a Rust panic at all, is one of the two panics
of `i64` division. -/
def DivAbortOnly (o : Outcome) : Prop :=
  ∀ m : String, o = .abort m →
    m = "attempt to divide by zero" ∨ m = "attempt to divide with overflow"

/-- An integer operation whose failures (Rust panics) are only the two
panics of `i64` division. -/
def IOpDivOnly (iop : Int → Int → Except String Int) : Prop :=
  ∀ a b : Int, ∀ m : String, iop a b = .error m →
    m = "attempt to divide by zero" ∨ m = "attempt to divide with overflow"

/-! ## Step lemmas

Restatements of the defining equations of the evaluator, convenient for
rewriting.  Each is proved by `rfl`. -/

theorem joinD_false (r : EvalOut) : joinD false r = r := by
  cases r; simp [joinD]

theorem joinD_out (d : Bool) (r : EvalOut) : (joinD d r).out = r.out := rfl

theorem joinD_env (d : Bool) (r : EvalOut) : (joinD d r).env = r.env := rfl

theorem joinD_usedDef (d : Bool) (r : EvalOut) : (joinD d r).usedDef = (d || r.usedDef) := rfl

theorem eval_zero (env : Env) (e : Expr) : eval 0 env e = ⟨.stackOverflow, env, false⟩ := rfl

theorem eval_bool (n : Nat) (env : Env) (b : Bool) :
    eval (n + 1) env (.Bool b) = ⟨.ok (.Bool b), env, false⟩ := rfl

theorem eval_integer (n : Nat) (env : Env) (i : Int) :
    eval (n + 1) env (.Integer i) = ⟨.ok (.Integer i), env, false⟩ := rfl

theorem eval_float (n : Nat) (env : Env) (f : Rat) :
    eval (n + 1) env (.Float f) = ⟨.ok (.Float f), env, false⟩ := rfl

theorem eval_symbol (n : Nat) (env : Env) (s : Symbol) :
    eval (n + 1) env (.Symbol s) =
      match env.get s with
      | some v => ⟨.ok v, env, false⟩
      | none => ⟨.err ("Unknown symbol '" ++ s ++ "'"), env, false⟩ := rfl

theorem eval_nil (n : Nat) (env : Env) :
    eval (n + 1) env (.List []) = ⟨.err "List cannot be empty", env, false⟩ := rfl

theorem eval_list (n : Nat) (env : Env) (first : Expr) (rest : List Expr) :
    eval (n + 1) env (.List (first :: rest)) =
      match eval n env first with
      | ⟨.ok v, env1, d1⟩ =>
        match v with
        | .Func (.BuiltIn _ f) =>
          joinD d1
            (match f with
             | .def_ => def_ n env1 rest
             | .func => func env1 rest
             | .ifdef => ifdef n env1 rest
             | .equals => equals n env1 rest
             | .addition => arithmetic n "+" "addition" addI addF env1 rest
             | .subtraction => arithmetic n "-" "subtraction" subI subF env1 rest
             | .multiplication => arithmetic n "*" "multiplication" mulI mulF env1 rest
             | .division => arithmetic n "/" "division" divI divF env1 rest
             | .less_than => less_than n env1 rest)
        | .Func (.UserDefined params body) =>
          if params.length ≠ rest.length then
            ⟨.err "Incorrect number of arguments provided", env1, d1⟩
          else
            match bindParams n env1 params rest [] with
            | ⟨.ok binds, env2, d2⟩ =>
              let r := eval n (Env.mk binds (some env1)) body
              ⟨r.out, env2, d1 || d2 || r.usedDef⟩
            | ⟨.fail o, env2, d2⟩ => ⟨o, env2, d1 || d2⟩
        | _ => ⟨.err (fmtExpr first ++ " is not a function"), env1, d1⟩
      | r => r := rfl

theorem bindParams_cons (n : Nat) (env : Env) (p : Expr) (ps : List Expr)
    (a : Expr) (args : List Expr) (acc : List (Symbol × Value)) :
    bindParams (n + 1) env (p :: ps) (a :: args) acc =
      match p with
      | .Symbol s =>
        match eval n env a with
        | ⟨.ok v, env1, d1⟩ =>
          let r := bindParams n env1 ps args ((s, v) :: acc)
          ⟨r.res, r.env, d1 || r.usedDef⟩
        | ⟨o, env1, d1⟩ => ⟨.fail o, env1, d1⟩
      | _ => ⟨.fail (.err "..."), env, false⟩ := rfl

/-! ## Abort characterization

Helper lemmas showing that the only Rust panics the evaluator can produce
are the two `i64`-division panics. -/

theorem divAbortOnly_ok (v : Value) : DivAbortOnly (.ok v) := fun _ h => nomatch h

theorem divAbortOnly_err (s : String) : DivAbortOnly (.err s) := fun _ h => nomatch h

theorem divAbortOnly_so : DivAbortOnly .stackOverflow := fun _ h => nomatch h

theorem divAbortOnly_joinD (d : Bool) (r : EvalOut) (h : DivAbortOnly r.out) :
    DivAbortOnly (joinD d r).out := h

theorem iop_div_only_addI : IOpDivOnly addI := fun _ _ _ h => nomatch h

theorem iop_div_only_subI : IOpDivOnly subI := fun _ _ _ h => nomatch h

theorem iop_div_only_mulI : IOpDivOnly mulI := fun _ _ _ h => nomatch h

theorem iop_div_only_divI : IOpDivOnly divI := by
  intro a b m h
  unfold divI at h
  split_ifs at h with h1 h2
  all_goals
    first
      | (injection h with h'
         exact Or.inl h'.symm)
      | (injection h with h'
         exact Or.inr h'.symm)

theorem divAbortOnly_func (env : Env) (args : List Expr) :
    DivAbortOnly (func env args).out := by
  rcases args with _ | ⟨a0, _ | ⟨a1, _ | ⟨a2, rest⟩⟩⟩
  · exact divAbortOnly_err _
  · exact divAbortOnly_err _
  · rcases a0 with b | i | f | s | l <;>
      first
        | exact divAbortOnly_err _
        | exact divAbortOnly_ok _
  · exact divAbortOnly_err _

/-- Every abort producible anywhere in the mutually recursive evaluator is
one of the two `i64`-division panics, at every fuel level. -/
theorem abort_master : ∀ n : Nat,
    (∀ env e, DivAbortOnly (eval n env e).out) ∧
    (∀ env ps args acc o, (bindParams n env ps args acc).res = .fail o →
      DivAbortOnly o) ∧
    (∀ env args, DivAbortOnly (def_ n env args).out) ∧
    (∀ env args, DivAbortOnly (ifdef n env args).out) ∧
    (∀ env args, DivAbortOnly (equals n env args).out) ∧
    (∀ b env args, DivAbortOnly (eqLoopB n b env args).out) ∧
    (∀ i env args, DivAbortOnly (eqLoopI n i env args).out) ∧
    (∀ f env args, DivAbortOnly (eqLoopF n f env args).out) ∧
    (∀ env args, DivAbortOnly (less_than n env args).out) ∧
    (∀ opStr nm iop fop env args, IOpDivOnly iop →
      DivAbortOnly (arithmetic n opStr nm iop fop env args).out) ∧
    (∀ nm iop acc env args, IOpDivOnly iop →
      DivAbortOnly (intFold n nm iop acc env args).out) ∧
    (∀ nm fop acc env args, DivAbortOnly (floatFold n nm fop acc env args).out) := by
  intro n
  induction n with
  | zero =>
    refine ⟨fun _ _ => divAbortOnly_so, ?_, fun _ _ => divAbortOnly_so,
      fun _ _ => divAbortOnly_so, fun _ _ => divAbortOnly_so,
      fun _ _ _ => divAbortOnly_so, fun _ _ _ => divAbortOnly_so,
      fun _ _ _ => divAbortOnly_so, fun _ _ => divAbortOnly_so,
      fun _ _ _ _ _ _ _ => divAbortOnly_so,
      fun _ _ _ _ _ _ => divAbortOnly_so, fun _ _ _ _ _ => divAbortOnly_so⟩
    intro env ps args acc o h
    injection h with h'
    exact h' ▸ divAbortOnly_so
  | succ n ih =>
    obtain ⟨ihEval, ihBind, ihDef, ihIf, ihEq, ihEqB, ihEqI, ihEqF, ihLt, ihArith,
      ihIntF, ihFloatF⟩ := ih
    refine ⟨?_, ?_, ?_, ?_, ?_, ?_, ?_, ?_, ?_, ?_, ?_, ?_⟩
    · -- eval
      intro env e
      rcases e with b | i | f | s | list
      · exact divAbortOnly_ok _
      · exact divAbortOnly_ok _
      · exact divAbortOnly_ok _
      · rw [eval_symbol]
        rcases env.get s with _ | v
        · exact divAbortOnly_err _
        · exact divAbortOnly_ok _
      · rcases list with _ | ⟨first, rest⟩
        · exact divAbortOnly_err _
        rcases hf : eval n env first with ⟨o, env1, d1⟩
        rcases o with v | m | m | _
        · rcases v with b | i | f | l | fn2
          · simp only [eval_list, hf]
            exact divAbortOnly_err _
          · simp only [eval_list, hf]
            exact divAbortOnly_err _
          · simp only [eval_list, hf]
            exact divAbortOnly_err _
          · simp only [eval_list, hf]
            exact divAbortOnly_err _
          rcases fn2 with ⟨nm, bf⟩ | ⟨params, body⟩
          · simp only [eval_list, hf]
            refine divAbortOnly_joinD _ _ ?_
            rcases bf with _ | _ | _ | _ | _ | _ | _ | _ | _
            · exact ihDef env1 rest
            · exact divAbortOnly_func env1 rest
            · exact ihIf env1 rest
            · exact ihEq env1 rest
            · exact ihArith "+" "addition" addI addF env1 rest iop_div_only_addI
            · exact ihArith "-" "subtraction" subI subF env1 rest iop_div_only_subI
            · exact ihArith "*" "multiplication" mulI mulF env1 rest iop_div_only_mulI
            · exact ihArith "/" "division" divI divF env1 rest iop_div_only_divI
            · exact ihLt env1 rest
          · simp only [eval_list, hf]
            split
            · exact divAbortOnly_err _
            rcases hb : bindParams n env1 params rest [] with ⟨res, env2, d2⟩
            rcases res with binds | o2
            · simp only [hb]
              exact ihEval (Env.mk binds (some env1)) body
            · simp only [hb]
              exact ihBind env1 params rest [] o2 (by rw [hb])
        · simp only [eval_list, hf]
          exact divAbortOnly_err _
        · simp only [eval_list, hf]
          have h' := ihEval env first
          rw [hf] at h'
          exact h'
        · simp only [eval_list, hf]
          exact divAbortOnly_so
    · -- bindParams
      intro env ps args acc o h
      rcases ps with _ | ⟨p, ps⟩
      · exact nomatch h
      rcases args with _ | ⟨a, args⟩
      · exact nomatch h
      rcases p with b | i | f | s | l
      · rw [bindParams_cons] at h
        injection h with h'
        exact h' ▸ divAbortOnly_err _
      · rw [bindParams_cons] at h
        injection h with h'
        exact h' ▸ divAbortOnly_err _
      · rw [bindParams_cons] at h
        injection h with h'
        exact h' ▸ divAbortOnly_err _
      · rcases ha : eval n env a with ⟨o1, env1, d1⟩
        rcases o1 with v | m | m | _
        · simp only [bindParams_cons, ha] at h
          exact ihBind env1 ps args ((s, v) :: acc) o h
        · simp only [bindParams_cons, ha] at h
          injection h with h'
          exact h' ▸ divAbortOnly_err _
        · simp only [bindParams_cons, ha] at h
          injection h with h'
          have h'' := ihEval env a
          rw [ha] at h''
          exact h' ▸ h''
        · simp only [bindParams_cons, ha] at h
          injection h with h'
          exact h' ▸ divAbortOnly_so
      · rw [bindParams_cons] at h
        injection h with h'
        exact h' ▸ divAbortOnly_err _
    · -- def_
      intro env args
      rcases args with _ | ⟨a0, _ | ⟨a1, _ | ⟨a2, rest⟩⟩⟩
      · exact divAbortOnly_err _
      · exact divAbortOnly_err _
      · rcases a0 with b | i | f | s | l
        · exact divAbortOnly_err _
        · exact divAbortOnly_err _
        · exact divAbortOnly_err _
        · have st : def_ (n + 1) env [Expr.Symbol s, a1] =
              match eval n env a1 with
              | ⟨.ok v, env1, _⟩ => ⟨.ok (.Integer 0), env1.insert s v, true⟩
              | ⟨o, env1, _⟩ => ⟨o, env1, true⟩ := rfl
          rcases ha : eval n env a1 with ⟨o1, env1, d1⟩
          rcases o1 with v | m | m | _
          · simp only [st, ha]
            exact divAbortOnly_ok _
          · simp only [st, ha]
            exact divAbortOnly_err _
          · simp only [st, ha]
            have h' := ihEval env a1
            rw [ha] at h'
            exact h'
          · simp only [st, ha]
            exact divAbortOnly_so
        · exact divAbortOnly_err _
      · exact divAbortOnly_err _
    · -- ifdef
      intro env args
      rcases args with _ | ⟨c, _ | ⟨t, _ | ⟨e', _ | ⟨x, rest⟩⟩⟩⟩
      · exact divAbortOnly_err _
      · exact divAbortOnly_err _
      · exact divAbortOnly_err _
      · have st : ifdef (n + 1) env [c, t, e'] =
            match eval n env c with
            | ⟨.ok (.Bool true), env1, d⟩ => joinD d (eval n env1 t)
            | ⟨.ok (.Bool false), env1, d⟩ => joinD d (eval n env1 e')
            | ⟨.ok _, env1, d⟩ =>
              ⟨.err "Condition in 'if' must evaluate to a boolean value", env1, d⟩
            | r => r := rfl
        rcases hc : eval n env c with ⟨o1, env1, d1⟩
        rcases o1 with v | m | m | _
        · rcases v with b | i | f | l | fn2
          · cases b
            · simp only [st, hc]
              exact divAbortOnly_joinD _ _ (ihEval env1 e')
            · simp only [st, hc]
              exact divAbortOnly_joinD _ _ (ihEval env1 t)
          · simp only [st, hc]
            exact divAbortOnly_err _
          · simp only [st, hc]
            exact divAbortOnly_err _
          · simp only [st, hc]
            exact divAbortOnly_err _
          · simp only [st, hc]
            exact divAbortOnly_err _
        · simp only [st, hc]
          exact divAbortOnly_err _
        · simp only [st, hc]
          have h' := ihEval env c
          rw [hc] at h'
          exact h'
        · simp only [st, hc]
          exact divAbortOnly_so
      · exact divAbortOnly_err _
    · -- equals
      intro env args
      rcases args with _ | ⟨a0, _ | ⟨a1, rest⟩⟩
      · exact divAbortOnly_err _
      · exact divAbortOnly_err _
      · have st : equals (n + 1) env (a0 :: a1 :: rest) =
            match eval n env a0 with
            | ⟨.ok (.Bool b), env1, d⟩ => joinD d (eqLoopB n b env1 (a1 :: rest))
            | ⟨.ok (.Integer i), env1, d⟩ => joinD d (eqLoopI n i env1 (a1 :: rest))
            | ⟨.ok (.Float f), env1, d⟩ => joinD d (eqLoopF n f env1 (a1 :: rest))
            | ⟨.ok _, env1, d⟩ =>
              ⟨.err "Must apply '=' to numeric or boolean types", env1, d⟩
            | r => r := rfl
        rcases hc : eval n env a0 with ⟨o1, env1, d1⟩
        rcases o1 with v | m | m | _
        · rcases v with b | i | f | l | fn2
          · simp only [st, hc]
            exact divAbortOnly_joinD _ _ (ihEqB b env1 (a1 :: rest))
          · simp only [st, hc]
            exact divAbortOnly_joinD _ _ (ihEqI i env1 (a1 :: rest))
          · simp only [st, hc]
            exact divAbortOnly_joinD _ _ (ihEqF f env1 (a1 :: rest))
          · simp only [st, hc]
            exact divAbortOnly_err _
          · simp only [st, hc]
            exact divAbortOnly_err _
        · simp only [st, hc]
          exact divAbortOnly_err _
        · simp only [st, hc]
          have h' := ihEval env a0
          rw [hc] at h'
          exact h'
        · simp only [st, hc]
          exact divAbortOnly_so
    · -- eqLoopB
      intro b env args
      rcases args with _ | ⟨a, rest⟩
      · exact divAbortOnly_ok _
      have st : eqLoopB (n + 1) b env (a :: rest) =
          match eval n env a with
          | ⟨.ok (.Bool c), env1, d⟩ =>
            if b = c then joinD d (eqLoopB n b env1 rest)
            else ⟨.ok (.Bool false), env1, d⟩
          | ⟨.ok v, env1, d⟩ =>
            ⟨.err ("Non-boolean '" ++ fmtValue v ++ "' found in boolean equals"),
              env1, d⟩
          | r => r := rfl
      rcases ha : eval n env a with ⟨o1, env1, d1⟩
      rcases o1 with v | m | m | _
      · rcases v with c | i | f | l | fn2
        · simp only [st, ha]
          split
          · exact divAbortOnly_joinD _ _ (ihEqB b env1 rest)
          · exact divAbortOnly_ok _
        · simp only [st, ha]
          exact divAbortOnly_err _
        · simp only [st, ha]
          exact divAbortOnly_err _
        · simp only [st, ha]
          exact divAbortOnly_err _
        · simp only [st, ha]
          exact divAbortOnly_err _
      · simp only [st, ha]
        exact divAbortOnly_err _
      · simp only [st, ha]
        have h' := ihEval env a
        rw [ha] at h'
        exact h'
      · simp only [st, ha]
        exact divAbortOnly_so
    · -- eqLoopI
      intro i env args
      rcases args with _ | ⟨a, rest⟩
      · exact divAbortOnly_ok _
      have st : eqLoopI (n + 1) i env (a :: rest) =
          match eval n env a with
          | ⟨.ok (.Integer j), env1, d⟩ =>
            if i = j then joinD d (eqLoopI n i env1 rest)
            else ⟨.ok (.Bool false), env1, d⟩
          | ⟨.ok v, env1, d⟩ =>
            ⟨.err ("Non-integer '" ++ fmtValue v ++ "' found in integer equals"),
              env1, d⟩
          | r => r := rfl
      rcases ha : eval n env a with ⟨o1, env1, d1⟩
      rcases o1 with v | m | m | _
      · rcases v with c | j | f | l | fn2
        · simp only [st, ha]
          exact divAbortOnly_err _
        · simp only [st, ha]
          split
          · exact divAbortOnly_joinD _ _ (ihEqI i env1 rest)
          · exact divAbortOnly_ok _
        · simp only [st, ha]
          exact divAbortOnly_err _
        · simp only [st, ha]
          exact divAbortOnly_err _
        · simp only [st, ha]
          exact divAbortOnly_err _
      · simp only [st, ha]
        exact divAbortOnly_err _
      · simp only [st, ha]
        have h' := ihEval env a
        rw [ha] at h'
        exact h'
      · simp only [st, ha]
        exact divAbortOnly_so
    · -- eqLoopF
      intro f env args
      rcases args with _ | ⟨a, rest⟩
      · exact divAbortOnly_ok _
      have st : eqLoopF (n + 1) f env (a :: rest) =
          match eval n env a with
          | ⟨.ok (.Float g), env1, d⟩ =>
            if f = g then joinD d (eqLoopF n f env1 rest)
            else ⟨.ok (.Bool false), env1, d⟩
          | ⟨.ok v, env1, d⟩ =>
            ⟨.err ("Non-float '" ++ fmtValue v ++ "' found in float equals"),
              env1, d⟩
          | r => r := rfl
      rcases ha : eval n env a with ⟨o1, env1, d1⟩
      rcases o1 with v | m | m | _
      · rcases v with c | j | g | l | fn2
        · simp only [st, ha]
          exact divAbortOnly_err _
        · simp only [st, ha]
          exact divAbortOnly_err _
        · simp only [st, ha]
          split
          · exact divAbortOnly_joinD _ _ (ihEqF f env1 rest)
          · exact divAbortOnly_ok _
        · simp only [st, ha]
          exact divAbortOnly_err _
        · simp only [st, ha]
          exact divAbortOnly_err _
      · simp only [st, ha]
        exact divAbortOnly_err _
      · simp only [st, ha]
        have h' := ihEval env a
        rw [ha] at h'
        exact h'
      · simp only [st, ha]
        exact divAbortOnly_so
    · -- less_than
      intro env args
      rcases args with _ | ⟨a0, _ | ⟨a1, rest⟩⟩
      · exact divAbortOnly_err _
      · exact divAbortOnly_err _
      · have st : less_than (n + 1) env (a0 :: a1 :: rest) =
            match eval n env a0 with
            | ⟨.ok (.Integer i), env1, d⟩ =>
              match eval n env1 a1 with
              | ⟨.ok (.Integer j), env2, d2⟩ =>
                ⟨.ok (.Bool (decide (i < j))), env2, d || d2⟩
              | ⟨.ok v, env2, d2⟩ =>
                ⟨.err ("Cannot compare integer '" ++ fmtValue (.Integer i) ++
                  "' with non-integer '" ++ fmtValue v ++ "'"), env2, d || d2⟩
              | r => joinD d r
            | ⟨.ok (.Float f), env1, d⟩ =>
              match eval n env1 a1 with
              | ⟨.ok (.Float g), env2, d2⟩ =>
                ⟨.ok (.Bool (decide (f < g))), env2, d || d2⟩
              | ⟨.ok v, env2, d2⟩ =>
                ⟨.err ("Cannot compare float '" ++ fmtValue (.Float f) ++
                  "' with non-float '" ++ fmtValue v ++ "'"), env2, d || d2⟩
              | r => joinD d r
            | ⟨.ok v, env1, d⟩ =>
              ⟨.err ("Cannot use value '" ++ fmtValue v ++ "' for comparison"),
                env1, d⟩
            | r => r := rfl
        rcases ha : eval n env a0 with ⟨o1, env1, d1⟩
        rcases o1 with v | m | m | _
        · rcases v with c | i | f | l | fn2
          · simp only [st, ha]
            exact divAbortOnly_err _
          · rcases hb : eval n env1 a1 with ⟨o2, env2, d2⟩
            rcases o2 with v2 | m2 | m2 | _
            · rcases v2 with c2 | i2 | f2 | l2 | fn3
              · simp only [st, ha, hb]
                exact divAbortOnly_err _
              · simp only [st, ha, hb]
                exact divAbortOnly_ok _
              · simp only [st, ha, hb]
                exact divAbortOnly_err _
              · simp only [st, ha, hb]
                exact divAbortOnly_err _
              · simp only [st, ha, hb]
                exact divAbortOnly_err _
            · simp only [st, ha, hb]
              exact divAbortOnly_err _
            · simp only [st, ha, hb]
              refine divAbortOnly_joinD _ _ ?_
              have h' := ihEval env1 a1
              rw [hb] at h'
              exact h'
            · simp only [st, ha, hb]
              exact divAbortOnly_so
          · rcases hb : eval n env1 a1 with ⟨o2, env2, d2⟩
            rcases o2 with v2 | m2 | m2 | _
            · rcases v2 with c2 | i2 | f2 | l2 | fn3
              · simp only [st, ha, hb]
                exact divAbortOnly_err _
              · simp only [st, ha, hb]
                exact divAbortOnly_err _
              · simp only [st, ha, hb]
                exact divAbortOnly_ok _
              · simp only [st, ha, hb]
                exact divAbortOnly_err _
              · simp only [st, ha, hb]
                exact divAbortOnly_err _
            · simp only [st, ha, hb]
              exact divAbortOnly_err _
            · simp only [st, ha, hb]
              refine divAbortOnly_joinD _ _ ?_
              have h' := ihEval env1 a1
              rw [hb] at h'
              exact h'
            · simp only [st, ha, hb]
              exact divAbortOnly_so
          · simp only [st, ha]
            exact divAbortOnly_err _
          · simp only [st, ha]
            exact divAbortOnly_err _
        · simp only [st, ha]
          exact divAbortOnly_err _
        · simp only [st, ha]
          have h' := ihEval env a0
          rw [ha] at h'
          exact h'
        · simp only [st, ha]
          exact divAbortOnly_so
    · -- arithmetic
      intro opStr nm iop fop env args hIop
      rcases args with _ | ⟨a0, rest⟩
      · exact divAbortOnly_err _
      · have st : arithmetic (n + 1) opStr nm iop fop env (a0 :: rest) =
            match eval n env a0 with
            | ⟨.ok (.Integer i), env1, d⟩ => joinD d (intFold n nm iop i env1 rest)
            | ⟨.ok (.Float f), env1, d⟩ => joinD d (floatFold n nm fop f env1 rest)
            | ⟨.ok _, env1, d⟩ => ⟨.err "Must apply '+' to numeric types", env1, d⟩
            | r => r := rfl
        rcases ha : eval n env a0 with ⟨o1, env1, d1⟩
        rcases o1 with v | m | m | _
        · rcases v with c | i | f | l | fn2
          · simp only [st, ha]
            exact divAbortOnly_err _
          · simp only [st, ha]
            exact divAbortOnly_joinD _ _ (ihIntF nm iop i env1 rest hIop)
          · simp only [st, ha]
            exact divAbortOnly_joinD _ _ (ihFloatF nm fop f env1 rest)
          · simp only [st, ha]
            exact divAbortOnly_err _
          · simp only [st, ha]
            exact divAbortOnly_err _
        · simp only [st, ha]
          exact divAbortOnly_err _
        · simp only [st, ha]
          have h' := ihEval env a0
          rw [ha] at h'
          exact h'
        · simp only [st, ha]
          exact divAbortOnly_so
    · -- intFold
      intro nm iop acc env args hIop
      rcases args with _ | ⟨a, rest⟩
      · exact divAbortOnly_ok _
      · have st : intFold (n + 1) nm iop acc env (a :: rest) =
            match eval n env a with
            | ⟨.ok (.Integer j), env1, d⟩ =>
              match iop acc j with
              | .ok r => joinD d (intFold n nm iop r env1 rest)
              | .error m => ⟨.abort m, env1, d⟩
            | ⟨.ok v, env1, d⟩ =>
              ⟨.err ("Non-integer '" ++ fmtValue v ++ "' found in integer " ++ nm),
                env1, d⟩
            | r => r := rfl
        rcases ha : eval n env a with ⟨o1, env1, d1⟩
        rcases o1 with v | m | m | _
        · rcases v with c | j | f | l | fn2
          · simp only [st, ha]
            exact divAbortOnly_err _
          · rcases hop : iop acc j with m2 | r
            · simp only [st, ha, hop]
              intro m' h'
              injection h' with h''
              exact h'' ▸ hIop acc j m2 hop
            · simp only [st, ha, hop]
              exact divAbortOnly_joinD _ _ (ihIntF nm iop r env1 rest hIop)
          · simp only [st, ha]
            exact divAbortOnly_err _
          · simp only [st, ha]
            exact divAbortOnly_err _
          · simp only [st, ha]
            exact divAbortOnly_err _
        · simp only [st, ha]
          exact divAbortOnly_err _
        · simp only [st, ha]
          have h' := ihEval env a
          rw [ha] at h'
          exact h'
        · simp only [st, ha]
          exact divAbortOnly_so
    · -- floatFold
      intro nm fop acc env args
      rcases args with _ | ⟨a, rest⟩
      · exact divAbortOnly_ok _
      · have st : floatFold (n + 1) nm fop acc env (a :: rest) =
            match eval n env a with
            | ⟨.ok (.Float g), env1, d⟩ =>
              joinD d (floatFold n nm fop (fop acc g) env1 rest)
            | ⟨.ok v, env1, d⟩ =>
              ⟨.err ("Non-float '" ++ fmtValue v ++ "' found in float " ++ nm),
                env1, d⟩
            | r => r := rfl
        rcases ha : eval n env a with ⟨o1, env1, d1⟩
        rcases o1 with v | m | m | _
        · rcases v with c | j | g | l | fn2
          · simp only [st, ha]
            exact divAbortOnly_err _
          · simp only [st, ha]
            exact divAbortOnly_err _
          · simp only [st, ha]
            exact divAbortOnly_joinD _ _ (ihFloatF nm fop (fop acc g) env1 rest)
          · simp only [st, ha]
            exact divAbortOnly_err _
          · simp only [st, ha]
            exact divAbortOnly_err _
        · simp only [st, ha]
          exact divAbortOnly_err _
        · simp only [st, ha]
          have h' := ihEval env a
          rw [ha] at h'
          exact h'
        · simp only [st, ha]
          exact divAbortOnly_so

/-! ## Environment preservation

Helper lemmas showing that the ghost `usedDef` flag soundly tracks every
mutation of the current environment: when it is `false`, the environment
comes back unchanged. -/

theorem evalOut_mk_usedDef (o : Outcome) (env : Env) (d : Bool) :
    (⟨o, env, d⟩ : EvalOut).usedDef = d := rfl

theorem evalOut_mk_env (o : Outcome) (env : Env) (d : Bool) :
    (⟨o, env, d⟩ : EvalOut).env = env := rfl

theorem bindOut_mk_usedDef (r : BindRes) (env : Env) (d : Bool) :
    (⟨r, env, d⟩ : BindOut).usedDef = d := rfl

theorem bindOut_mk_env (r : BindRes) (env : Env) (d : Bool) :
    (⟨r, env, d⟩ : BindOut).env = env := rfl

theorem func_preserves_env (env : Env) (args : List Expr) :
    (func env args).env = env ∧ (func env args).usedDef = false := by
  rcases args with _ | ⟨a0, _ | ⟨a1, _ | ⟨a2, rest⟩⟩⟩
  · exact ⟨rfl, rfl⟩
  · exact ⟨rfl, rfl⟩
  · rcases a0 with b | i | f | s | l <;> exact ⟨rfl, rfl⟩
  · exact ⟨rfl, rfl⟩

/-- Soundness of the ghost flag across the whole mutually recursive
evaluator: whenever a component reports `usedDef = false`, it hands back the
very environment it was given (`def_` itself always reports `true`). -/
theorem noDef_master : ∀ n : Nat,
    (∀ env e, (eval n env e).usedDef = false → (eval n env e).env = env) ∧
    (∀ env ps args acc, (bindParams n env ps args acc).usedDef = false →
      (bindParams n env ps args acc).env = env) ∧
    (∀ env args, (def_ n env args).usedDef = true) ∧
    (∀ env args, (ifdef n env args).usedDef = false →
      (ifdef n env args).env = env) ∧
    (∀ env args, (equals n env args).usedDef = false →
      (equals n env args).env = env) ∧
    (∀ b env args, (eqLoopB n b env args).usedDef = false →
      (eqLoopB n b env args).env = env) ∧
    (∀ i env args, (eqLoopI n i env args).usedDef = false →
      (eqLoopI n i env args).env = env) ∧
    (∀ f env args, (eqLoopF n f env args).usedDef = false →
      (eqLoopF n f env args).env = env) ∧
    (∀ env args, (less_than n env args).usedDef = false →
      (less_than n env args).env = env) ∧
    (∀ opStr nm iop fop env args,
      (arithmetic n opStr nm iop fop env args).usedDef = false →
      (arithmetic n opStr nm iop fop env args).env = env) ∧
    (∀ nm iop acc env args, (intFold n nm iop acc env args).usedDef = false →
      (intFold n nm iop acc env args).env = env) ∧
    (∀ nm fop acc env args, (floatFold n nm fop acc env args).usedDef = false →
      (floatFold n nm fop acc env args).env = env) := by
  intro n
  induction n with
  | zero =>
    exact ⟨fun _ _ _ => rfl, fun _ _ _ _ _ => rfl, fun _ _ => rfl,
      fun _ _ _ => rfl, fun _ _ _ => rfl, fun _ _ _ _ => rfl,
      fun _ _ _ _ => rfl, fun _ _ _ _ => rfl, fun _ _ _ => rfl,
      fun _ _ _ _ _ _ _ => rfl, fun _ _ _ _ _ _ => rfl, fun _ _ _ _ _ _ => rfl⟩
  | succ n ih =>
    obtain ⟨ihEval, ihBind, ihDef, ihIf, ihEq, ihEqB, ihEqI, ihEqF, ihLt, ihArith,
      ihIntF, ihFloatF⟩ := ih
    refine ⟨?_, ?_, ?_, ?_, ?_, ?_, ?_, ?_, ?_, ?_, ?_, ?_⟩
    · -- eval
      intro env e
      rcases e with b | i | f | s | list
      · exact fun _ => rfl
      · exact fun _ => rfl
      · exact fun _ => rfl
      · rw [eval_symbol]
        rcases env.get s with _ | v
        · exact fun _ => rfl
        · exact fun _ => rfl
      · rcases list with _ | ⟨first, rest⟩
        · exact fun _ => rfl
        rcases hf : eval n env first with ⟨o, env1, d1⟩
        have henv1 : d1 = false → env1 = env := by
          intro hd
          have h' := ihEval env first
          rw [hf] at h'
          exact h' hd
        rcases o with v | m | m | _
        · rcases v with b | i | f | l | fn2
          · intro hflag
            simp only [eval_list, hf] at hflag ⊢
            exact henv1 hflag
          · intro hflag
            simp only [eval_list, hf] at hflag ⊢
            exact henv1 hflag
          · intro hflag
            simp only [eval_list, hf] at hflag ⊢
            exact henv1 hflag
          · intro hflag
            simp only [eval_list, hf] at hflag ⊢
            exact henv1 hflag
          rcases fn2 with ⟨nm, bf⟩ | ⟨params, body⟩
          · intro hflag
            simp only [eval_list, hf, joinD_usedDef, joinD_env,
              Bool.or_eq_false_iff] at hflag ⊢
            obtain ⟨hd1, hb2⟩ := hflag
            rcases bf with _ | _ | _ | _ | _ | _ | _ | _ | _
            · rw [ihDef env1 rest] at hb2
              exact nomatch hb2
            · exact (func_preserves_env env1 rest).1.trans (henv1 hd1)
            · exact (ihIf env1 rest hb2).trans (henv1 hd1)
            · exact (ihEq env1 rest hb2).trans (henv1 hd1)
            · exact (ihArith "+" "addition" addI addF env1 rest hb2).trans (henv1 hd1)
            · exact (ihArith "-" "subtraction" subI subF env1 rest hb2).trans (henv1 hd1)
            · exact (ihArith "*" "multiplication" mulI mulF env1 rest hb2).trans
                (henv1 hd1)
            · exact (ihArith "/" "division" divI divF env1 rest hb2).trans (henv1 hd1)
            · exact (ihLt env1 rest hb2).trans (henv1 hd1)
          · intro hflag
            simp only [eval_list, hf] at hflag ⊢
            revert hflag
            split
            · intro hflag
              exact henv1 hflag
            rcases hb : bindParams n env1 params rest [] with ⟨res, env2, d2⟩
            have henv2 : d2 = false → env2 = env1 := by
              intro hd
              have h' := ihBind env1 params rest []
              rw [hb] at h'
              exact h' hd
            rcases res with binds | o2
            · intro hflag
              simp only [hb, evalOut_mk_usedDef, evalOut_mk_env,
                Bool.or_eq_false_iff] at hflag ⊢
              exact (henv2 hflag.1.2).trans (henv1 hflag.1.1)
            · intro hflag
              simp only [hb, evalOut_mk_usedDef, evalOut_mk_env,
                Bool.or_eq_false_iff] at hflag ⊢
              exact (henv2 hflag.2).trans (henv1 hflag.1)
        · intro hflag
          simp only [eval_list, hf] at hflag ⊢
          exact henv1 hflag
        · intro hflag
          simp only [eval_list, hf] at hflag ⊢
          exact henv1 hflag
        · intro hflag
          simp only [eval_list, hf] at hflag ⊢
          exact henv1 hflag
    · -- bindParams
      intro env ps args acc
      rcases ps with _ | ⟨p, ps⟩
      · exact fun _ => rfl
      rcases args with _ | ⟨a, args⟩
      · exact fun _ => rfl
      rcases p with b | i | f | s | l
      · exact fun _ => rfl
      · exact fun _ => rfl
      · exact fun _ => rfl
      · rcases ha : eval n env a with ⟨o1, env1, d1⟩
        have henv1 : d1 = false → env1 = env := by
          intro hd
          have h' := ihEval env a
          rw [ha] at h'
          exact h' hd
        rcases o1 with v | m | m | _
        · intro hflag
          simp only [bindParams_cons, ha, bindOut_mk_usedDef, bindOut_mk_env,
            Bool.or_eq_false_iff] at hflag ⊢
          exact (ihBind env1 ps args ((s, v) :: acc) hflag.2).trans (henv1 hflag.1)
        · intro hflag
          simp only [bindParams_cons, ha, bindOut_mk_usedDef, bindOut_mk_env] at hflag ⊢
          exact henv1 hflag
        · intro hflag
          simp only [bindParams_cons, ha, bindOut_mk_usedDef, bindOut_mk_env] at hflag ⊢
          exact henv1 hflag
        · intro hflag
          simp only [bindParams_cons, ha, bindOut_mk_usedDef, bindOut_mk_env] at hflag ⊢
          exact henv1 hflag
      · exact fun _ => rfl
    · -- def_ always reports usedDef = true
      intro env args
      rcases args with _ | ⟨a0, _ | ⟨a1, _ | ⟨a2, rest⟩⟩⟩
      · rfl
      · rfl
      · rcases a0 with b | i | f | s | l
        · rfl
        · rfl
        · rfl
        · have st : def_ (n + 1) env [Expr.Symbol s, a1] =
              match eval n env a1 with
              | ⟨.ok v, env1, _⟩ => ⟨.ok (.Integer 0), env1.insert s v, true⟩
              | ⟨o, env1, _⟩ => ⟨o, env1, true⟩ := rfl
          rcases ha : eval n env a1 with ⟨o1, env1, d1⟩
          rcases o1 with v | m | m | _ <;> simp only [st, ha, evalOut_mk_usedDef]
        · rfl
      · rfl
    · -- ifdef
      intro env args
      rcases args with _ | ⟨c, _ | ⟨t, _ | ⟨e', _ | ⟨x, rest⟩⟩⟩⟩
      · exact fun _ => rfl
      · exact fun _ => rfl
      · exact fun _ => rfl
      · have st : ifdef (n + 1) env [c, t, e'] =
            match eval n env c with
            | ⟨.ok (.Bool true), env1, d⟩ => joinD d (eval n env1 t)
            | ⟨.ok (.Bool false), env1, d⟩ => joinD d (eval n env1 e')
            | ⟨.ok _, env1, d⟩ =>
              ⟨.err "Condition in 'if' must evaluate to a boolean value", env1, d⟩
            | r => r := rfl
        rcases hc : eval n env c with ⟨o1, env1, d1⟩
        have henv1 : d1 = false → env1 = env := by
          intro hd
          have h' := ihEval env c
          rw [hc] at h'
          exact h' hd
        rcases o1 with v | m | m | _
        · rcases v with b | i | f | l | fn2
          · cases b
            · intro hflag
              simp only [st, hc, joinD_usedDef, joinD_env,
                Bool.or_eq_false_iff] at hflag ⊢
              exact (ihEval env1 e' hflag.2).trans (henv1 hflag.1)
            · intro hflag
              simp only [st, hc, joinD_usedDef, joinD_env,
                Bool.or_eq_false_iff] at hflag ⊢
              exact (ihEval env1 t hflag.2).trans (henv1 hflag.1)
          · intro hflag
            simp only [st, hc, evalOut_mk_usedDef, evalOut_mk_env] at hflag ⊢
            exact henv1 hflag
          · intro hflag
            simp only [st, hc, evalOut_mk_usedDef, evalOut_mk_env] at hflag ⊢
            exact henv1 hflag
          · intro hflag
            simp only [st, hc, evalOut_mk_usedDef, evalOut_mk_env] at hflag ⊢
            exact henv1 hflag
          · intro hflag
            simp only [st, hc, evalOut_mk_usedDef, evalOut_mk_env] at hflag ⊢
            exact henv1 hflag
        · intro hflag
          simp only [st, hc, evalOut_mk_usedDef, evalOut_mk_env] at hflag ⊢
          exact henv1 hflag
        · intro hflag
          simp only [st, hc, evalOut_mk_usedDef, evalOut_mk_env] at hflag ⊢
          exact henv1 hflag
        · intro hflag
          simp only [st, hc, evalOut_mk_usedDef, evalOut_mk_env] at hflag ⊢
          exact henv1 hflag
      · exact fun _ => rfl
    · -- equals
      intro env args
      rcases args with _ | ⟨a0, _ | ⟨a1, rest⟩⟩
      · exact fun _ => rfl
      · exact fun _ => rfl
      · have st : equals (n + 1) env (a0 :: a1 :: rest) =
            match eval n env a0 with
            | ⟨.ok (.Bool b), env1, d⟩ => joinD d (eqLoopB n b env1 (a1 :: rest))
            | ⟨.ok (.Integer i), env1, d⟩ => joinD d (eqLoopI n i env1 (a1 :: rest))
            | ⟨.ok (.Float f), env1, d⟩ => joinD d (eqLoopF n f env1 (a1 :: rest))
            | ⟨.ok _, env1, d⟩ =>
              ⟨.err "Must apply '=' to numeric or boolean types", env1, d⟩
            | r => r := rfl
        rcases hc : eval n env a0 with ⟨o1, env1, d1⟩
        have henv1 : d1 = false → env1 = env := by
          intro hd
          have h' := ihEval env a0
          rw [hc] at h'
          exact h' hd
        rcases o1 with v | m | m | _
        · rcases v with b | i | f | l | fn2
          · intro hflag
            simp only [st, hc, joinD_usedDef, joinD_env,
              Bool.or_eq_false_iff] at hflag ⊢
            exact (ihEqB b env1 (a1 :: rest) hflag.2).trans (henv1 hflag.1)
          · intro hflag
            simp only [st, hc, joinD_usedDef, joinD_env,
              Bool.or_eq_false_iff] at hflag ⊢
            exact (ihEqI i env1 (a1 :: rest) hflag.2).trans (henv1 hflag.1)
          · intro hflag
            simp only [st, hc, joinD_usedDef, joinD_env,
              Bool.or_eq_false_iff] at hflag ⊢
            exact (ihEqF f env1 (a1 :: rest) hflag.2).trans (henv1 hflag.1)
          · intro hflag
            simp only [st, hc, evalOut_mk_usedDef, evalOut_mk_env] at hflag ⊢
            exact henv1 hflag
          · intro hflag
            simp only [st, hc, evalOut_mk_usedDef, evalOut_mk_env] at hflag ⊢
            exact henv1 hflag
        · intro hflag
          simp only [st, hc, evalOut_mk_usedDef, evalOut_mk_env] at hflag ⊢
          exact henv1 hflag
        · intro hflag
          simp only [st, hc, evalOut_mk_usedDef, evalOut_mk_env] at hflag ⊢
          exact henv1 hflag
        · intro hflag
          simp only [st, hc, evalOut_mk_usedDef, evalOut_mk_env] at hflag ⊢
          exact henv1 hflag
    · -- eqLoopB
      intro b env args
      rcases args with _ | ⟨a, rest⟩
      · exact fun _ => rfl
      have st : eqLoopB (n + 1) b env (a :: rest) =
          match eval n env a with
          | ⟨.ok (.Bool c), env1, d⟩ =>
            if b = c then joinD d (eqLoopB n b env1 rest)
            else ⟨.ok (.Bool false), env1, d⟩
          | ⟨.ok v, env1, d⟩ =>
            ⟨.err ("Non-boolean '" ++ fmtValue v ++ "' found in boolean equals"),
              env1, d⟩
          | r => r := rfl
      rcases ha : eval n env a with ⟨o1, env1, d1⟩
      have henv1 : d1 = false → env1 = env := by
        intro hd
        have h' := ihEval env a
        rw [ha] at h'
        exact h' hd
      rcases o1 with v | m | m | _
      · rcases v with c | i | f | l | fn2
        · by_cases hbc : b = c
          · intro hflag
            simp only [st, ha, if_pos hbc, joinD_usedDef, joinD_env,
              Bool.or_eq_false_iff] at hflag ⊢
            exact (ihEqB b env1 rest hflag.2).trans (henv1 hflag.1)
          · intro hflag
            simp only [st, ha, if_neg hbc, evalOut_mk_usedDef,
              evalOut_mk_env] at hflag ⊢
            exact henv1 hflag
        · intro hflag
          simp only [st, ha, evalOut_mk_usedDef, evalOut_mk_env] at hflag ⊢
          exact henv1 hflag
        · intro hflag
          simp only [st, ha, evalOut_mk_usedDef, evalOut_mk_env] at hflag ⊢
          exact henv1 hflag
        · intro hflag
          simp only [st, ha, evalOut_mk_usedDef, evalOut_mk_env] at hflag ⊢
          exact henv1 hflag
        · intro hflag
          simp only [st, ha, evalOut_mk_usedDef, evalOut_mk_env] at hflag ⊢
          exact henv1 hflag
      · intro hflag
        simp only [st, ha, evalOut_mk_usedDef, evalOut_mk_env] at hflag ⊢
        exact henv1 hflag
      · intro hflag
        simp only [st, ha, evalOut_mk_usedDef, evalOut_mk_env] at hflag ⊢
        exact henv1 hflag
      · intro hflag
        simp only [st, ha, evalOut_mk_usedDef, evalOut_mk_env] at hflag ⊢
        exact henv1 hflag
    · -- eqLoopI
      intro i env args
      rcases args with _ | ⟨a, rest⟩
      · exact fun _ => rfl
      have st : eqLoopI (n + 1) i env (a :: rest) =
          match eval n env a with
          | ⟨.ok (.Integer j), env1, d⟩ =>
            if i = j then joinD d (eqLoopI n i env1 rest)
            else ⟨.ok (.Bool false), env1, d⟩
          | ⟨.ok v, env1, d⟩ =>
            ⟨.err ("Non-integer '" ++ fmtValue v ++ "' found in integer equals"),
              env1, d⟩
          | r => r := rfl
      rcases ha : eval n env a with ⟨o1, env1, d1⟩
      have henv1 : d1 = false → env1 = env := by
        intro hd
        have h' := ihEval env a
        rw [ha] at h'
        exact h' hd
      rcases o1 with v | m | m | _
      · rcases v with c | j | f | l | fn2
        · intro hflag
          simp only [st, ha, evalOut_mk_usedDef, evalOut_mk_env] at hflag ⊢
          exact henv1 hflag
        · by_cases hij : i = j
          · intro hflag
            simp only [st, ha, if_pos hij, joinD_usedDef, joinD_env,
              Bool.or_eq_false_iff] at hflag ⊢
            exact (ihEqI i env1 rest hflag.2).trans (henv1 hflag.1)
          · intro hflag
            simp only [st, ha, if_neg hij, evalOut_mk_usedDef,
              evalOut_mk_env] at hflag ⊢
            exact henv1 hflag
        · intro hflag
          simp only [st, ha, evalOut_mk_usedDef, evalOut_mk_env] at hflag ⊢
          exact henv1 hflag
        · intro hflag
          simp only [st, ha, evalOut_mk_usedDef, evalOut_mk_env] at hflag ⊢
          exact henv1 hflag
        · intro hflag
          simp only [st, ha, evalOut_mk_usedDef, evalOut_mk_env] at hflag ⊢
          exact henv1 hflag
      · intro hflag
        simp only [st, ha, evalOut_mk_usedDef, evalOut_mk_env] at hflag ⊢
        exact henv1 hflag
      · intro hflag
        simp only [st, ha, evalOut_mk_usedDef, evalOut_mk_env] at hflag ⊢
        exact henv1 hflag
      · intro hflag
        simp only [st, ha, evalOut_mk_usedDef, evalOut_mk_env] at hflag ⊢
        exact henv1 hflag
    · -- eqLoopF
      intro f env args
      rcases args with _ | ⟨a, rest⟩
      · exact fun _ => rfl
      have st : eqLoopF (n + 1) f env (a :: rest) =
          match eval n env a with
          | ⟨.ok (.Float g), env1, d⟩ =>
            if f = g then joinD d (eqLoopF n f env1 rest)
            else ⟨.ok (.Bool false), env1, d⟩
          | ⟨.ok v, env1, d⟩ =>
            ⟨.err ("Non-float '" ++ fmtValue v ++ "' found in float equals"),
              env1, d⟩
          | r => r := rfl
      rcases ha : eval n env a with ⟨o1, env1, d1⟩
      have henv1 : d1 = false → env1 = env := by
        intro hd
        have h' := ihEval env a
        rw [ha] at h'
        exact h' hd
      rcases o1 with v | m | m | _
      · rcases v with c | j | g | l | fn2
        · intro hflag
          simp only [st, ha, evalOut_mk_usedDef, evalOut_mk_env] at hflag ⊢
          exact henv1 hflag
        · intro hflag
          simp only [st, ha, evalOut_mk_usedDef, evalOut_mk_env] at hflag ⊢
          exact henv1 hflag
        · by_cases hfg : f = g
          · intro hflag
            simp only [st, ha, if_pos hfg, joinD_usedDef, joinD_env,
              Bool.or_eq_false_iff] at hflag ⊢
            exact (ihEqF f env1 rest hflag.2).trans (henv1 hflag.1)
          · intro hflag
            simp only [st, ha, if_neg hfg, evalOut_mk_usedDef,
              evalOut_mk_env] at hflag ⊢
            exact henv1 hflag
        · intro hflag
          simp only [st, ha, evalOut_mk_usedDef, evalOut_mk_env] at hflag ⊢
          exact henv1 hflag
        · intro hflag
          simp only [st, ha, evalOut_mk_usedDef, evalOut_mk_env] at hflag ⊢
          exact henv1 hflag
      · intro hflag
        simp only [st, ha, evalOut_mk_usedDef, evalOut_mk_env] at hflag ⊢
        exact henv1 hflag
      · intro hflag
        simp only [st, ha, evalOut_mk_usedDef, evalOut_mk_env] at hflag ⊢
        exact henv1 hflag
      · intro hflag
        simp only [st, ha, evalOut_mk_usedDef, evalOut_mk_env] at hflag ⊢
        exact henv1 hflag
    · -- less_than
      intro env args
      rcases args with _ | ⟨a0, _ | ⟨a1, rest⟩⟩
      · exact fun _ => rfl
      · exact fun _ => rfl
      · have st : less_than (n + 1) env (a0 :: a1 :: rest) =
            match eval n env a0 with
            | ⟨.ok (.Integer i), env1, d⟩ =>
              match eval n env1 a1 with
              | ⟨.ok (.Integer j), env2, d2⟩ =>
                ⟨.ok (.Bool (decide (i < j))), env2, d || d2⟩
              | ⟨.ok v, env2, d2⟩ =>
                ⟨.err ("Cannot compare integer '" ++ fmtValue (.Integer i) ++
                  "' with non-integer '" ++ fmtValue v ++ "'"), env2, d || d2⟩
              | r => joinD d r
            | ⟨.ok (.Float f), env1, d⟩ =>
              match eval n env1 a1 with
              | ⟨.ok (.Float g), env2, d2⟩ =>
                ⟨.ok (.Bool (decide (f < g))), env2, d || d2⟩
              | ⟨.ok v, env2, d2⟩ =>
                ⟨.err ("Cannot compare float '" ++ fmtValue (.Float f) ++
                  "' with non-float '" ++ fmtValue v ++ "'"), env2, d || d2⟩
              | r => joinD d r
            | ⟨.ok v, env1, d⟩ =>
              ⟨.err ("Cannot use value '" ++ fmtValue v ++ "' for comparison"),
                env1, d⟩
            | r => r := rfl
        rcases ha : eval n env a0 with ⟨o1, env1, d1⟩
        have henv1 : d1 = false → env1 = env := by
          intro hd
          have h' := ihEval env a0
          rw [ha] at h'
          exact h' hd
        rcases o1 with v | m | m | _
        · rcases v with c | i | f | l | fn2
          · intro hflag
            simp only [st, ha, evalOut_mk_usedDef, evalOut_mk_env] at hflag ⊢
            exact henv1 hflag
          · rcases hb : eval n env1 a1 with ⟨o2, env2, d2⟩
            have henv2 : d2 = false → env2 = env1 := by
              intro hd
              have h' := ihEval env1 a1
              rw [hb] at h'
              exact h' hd
            rcases o2 with v2 | m2 | m2 | _
            · rcases v2 with c2 | i2 | f2 | l2 | fn3 <;>
                · intro hflag
                  simp only [st, ha, hb, evalOut_mk_usedDef, evalOut_mk_env,
                    Bool.or_eq_false_iff] at hflag ⊢
                  exact (henv2 hflag.2).trans (henv1 hflag.1)
            · intro hflag
              simp only [st, ha, hb, joinD_usedDef, joinD_env, evalOut_mk_usedDef,
                evalOut_mk_env, Bool.or_eq_false_iff] at hflag ⊢
              exact (henv2 hflag.2).trans (henv1 hflag.1)
            · intro hflag
              simp only [st, ha, hb, joinD_usedDef, joinD_env, evalOut_mk_usedDef,
                evalOut_mk_env, Bool.or_eq_false_iff] at hflag ⊢
              exact (henv2 hflag.2).trans (henv1 hflag.1)
            · intro hflag
              simp only [st, ha, hb, joinD_usedDef, joinD_env, evalOut_mk_usedDef,
                evalOut_mk_env, Bool.or_eq_false_iff] at hflag ⊢
              exact (henv2 hflag.2).trans (henv1 hflag.1)
          · rcases hb : eval n env1 a1 with ⟨o2, env2, d2⟩
            have henv2 : d2 = false → env2 = env1 := by
              intro hd
              have h' := ihEval env1 a1
              rw [hb] at h'
              exact h' hd
            rcases o2 with v2 | m2 | m2 | _
            · rcases v2 with c2 | i2 | f2 | l2 | fn3 <;>
                · intro hflag
                  simp only [st, ha, hb, evalOut_mk_usedDef, evalOut_mk_env,
                    Bool.or_eq_false_iff] at hflag ⊢
                  exact (henv2 hflag.2).trans (henv1 hflag.1)
            · intro hflag
              simp only [st, ha, hb, joinD_usedDef, joinD_env, evalOut_mk_usedDef,
                evalOut_mk_env, Bool.or_eq_false_iff] at hflag ⊢
              exact (henv2 hflag.2).trans (henv1 hflag.1)
            · intro hflag
              simp only [st, ha, hb, joinD_usedDef, joinD_env, evalOut_mk_usedDef,
                evalOut_mk_env, Bool.or_eq_false_iff] at hflag ⊢
              exact (henv2 hflag.2).trans (henv1 hflag.1)
            · intro hflag
              simp only [st, ha, hb, joinD_usedDef, joinD_env, evalOut_mk_usedDef,
                evalOut_mk_env, Bool.or_eq_false_iff] at hflag ⊢
              exact (henv2 hflag.2).trans (henv1 hflag.1)
          · intro hflag
            simp only [st, ha, evalOut_mk_usedDef, evalOut_mk_env] at hflag ⊢
            exact henv1 hflag
          · intro hflag
            simp only [st, ha, evalOut_mk_usedDef, evalOut_mk_env] at hflag ⊢
            exact henv1 hflag
        · intro hflag
          simp only [st, ha, evalOut_mk_usedDef, evalOut_mk_env] at hflag ⊢
          exact henv1 hflag
        · intro hflag
          simp only [st, ha, evalOut_mk_usedDef, evalOut_mk_env] at hflag ⊢
          exact henv1 hflag
        · intro hflag
          simp only [st, ha, evalOut_mk_usedDef, evalOut_mk_env] at hflag ⊢
          exact henv1 hflag
    · -- arithmetic
      intro opStr nm iop fop env args
      rcases args with _ | ⟨a0, rest⟩
      · exact fun _ => rfl
      · have st : arithmetic (n + 1) opStr nm iop fop env (a0 :: rest) =
            match eval n env a0 with
            | ⟨.ok (.Integer i), env1, d⟩ => joinD d (intFold n nm iop i env1 rest)
            | ⟨.ok (.Float f), env1, d⟩ => joinD d (floatFold n nm fop f env1 rest)
            | ⟨.ok _, env1, d⟩ => ⟨.err "Must apply '+' to numeric types", env1, d⟩
            | r => r := rfl
        rcases ha : eval n env a0 with ⟨o1, env1, d1⟩
        have henv1 : d1 = false → env1 = env := by
          intro hd
          have h' := ihEval env a0
          rw [ha] at h'
          exact h' hd
        rcases o1 with v | m | m | _
        · rcases v with c | i | f | l | fn2
          · intro hflag
            simp only [st, ha, evalOut_mk_usedDef, evalOut_mk_env] at hflag ⊢
            exact henv1 hflag
          · intro hflag
            simp only [st, ha, joinD_usedDef, joinD_env,
              Bool.or_eq_false_iff] at hflag ⊢
            exact (ihIntF nm iop i env1 rest hflag.2).trans (henv1 hflag.1)
          · intro hflag
            simp only [st, ha, joinD_usedDef, joinD_env,
              Bool.or_eq_false_iff] at hflag ⊢
            exact (ihFloatF nm fop f env1 rest hflag.2).trans (henv1 hflag.1)
          · intro hflag
            simp only [st, ha, evalOut_mk_usedDef, evalOut_mk_env] at hflag ⊢
            exact henv1 hflag
          · intro hflag
            simp only [st, ha, evalOut_mk_usedDef, evalOut_mk_env] at hflag ⊢
            exact henv1 hflag
        · intro hflag
          simp only [st, ha, evalOut_mk_usedDef, evalOut_mk_env] at hflag ⊢
          exact henv1 hflag
        · intro hflag
          simp only [st, ha, evalOut_mk_usedDef, evalOut_mk_env] at hflag ⊢
          exact henv1 hflag
        · intro hflag
          simp only [st, ha, evalOut_mk_usedDef, evalOut_mk_env] at hflag ⊢
          exact henv1 hflag
    · -- intFold
      intro nm iop acc env args
      rcases args with _ | ⟨a, rest⟩
      · exact fun _ => rfl
      · have st : intFold (n + 1) nm iop acc env (a :: rest) =
            match eval n env a with
            | ⟨.ok (.Integer j), env1, d⟩ =>
              match iop acc j with
              | .ok r => joinD d (intFold n nm iop r env1 rest)
              | .error m => ⟨.abort m, env1, d⟩
            | ⟨.ok v, env1, d⟩ =>
              ⟨.err ("Non-integer '" ++ fmtValue v ++ "' found in integer " ++ nm),
                env1, d⟩
            | r => r := rfl
        rcases ha : eval n env a with ⟨o1, env1, d1⟩
        have henv1 : d1 = false → env1 = env := by
          intro hd
          have h' := ihEval env a
          rw [ha] at h'
          exact h' hd
        rcases o1 with v | m | m | _
        · rcases v with c | j | f | l | fn2
          · intro hflag
            simp only [st, ha, evalOut_mk_usedDef, evalOut_mk_env] at hflag ⊢
            exact henv1 hflag
          · rcases hop : iop acc j with m2 | r
            · intro hflag
              simp only [st, ha, hop, evalOut_mk_usedDef, evalOut_mk_env] at hflag ⊢
              exact henv1 hflag
            · intro hflag
              simp only [st, ha, hop, joinD_usedDef, joinD_env,
                Bool.or_eq_false_iff] at hflag ⊢
              exact (ihIntF nm iop r env1 rest hflag.2).trans (henv1 hflag.1)
          · intro hflag
            simp only [st, ha, evalOut_mk_usedDef, evalOut_mk_env] at hflag ⊢
            exact henv1 hflag
          · intro hflag
            simp only [st, ha, evalOut_mk_usedDef, evalOut_mk_env] at hflag ⊢
            exact henv1 hflag
          · intro hflag
            simp only [st, ha, evalOut_mk_usedDef, evalOut_mk_env] at hflag ⊢
            exact henv1 hflag
        · intro hflag
          simp only [st, ha, evalOut_mk_usedDef, evalOut_mk_env] at hflag ⊢
          exact henv1 hflag
        · intro hflag
          simp only [st, ha, evalOut_mk_usedDef, evalOut_mk_env] at hflag ⊢
          exact henv1 hflag
        · intro hflag
          simp only [st, ha, evalOut_mk_usedDef, evalOut_mk_env] at hflag ⊢
          exact henv1 hflag
    · -- floatFold
      intro nm fop acc env args
      rcases args with _ | ⟨a, rest⟩
      · exact fun _ => rfl
      · have st : floatFold (n + 1) nm fop acc env (a :: rest) =
            match eval n env a with
            | ⟨.ok (.Float g), env1, d⟩ =>
              joinD d (floatFold n nm fop (fop acc g) env1 rest)
            | ⟨.ok v, env1, d⟩ =>
              ⟨.err ("Non-float '" ++ fmtValue v ++ "' found in float " ++ nm),
                env1, d⟩
            | r => r := rfl
        rcases ha : eval n env a with ⟨o1, env1, d1⟩
        have henv1 : d1 = false → env1 = env := by
          intro hd
          have h' := ihEval env a
          rw [ha] at h'
          exact h' hd
        rcases o1 with v | m | m | _
        · rcases v with c | j | g | l | fn2
          · intro hflag
            simp only [st, ha, evalOut_mk_usedDef, evalOut_mk_env] at hflag ⊢
            exact henv1 hflag
          · intro hflag
            simp only [st, ha, evalOut_mk_usedDef, evalOut_mk_env] at hflag ⊢
            exact henv1 hflag
          · intro hflag
            simp only [st, ha, joinD_usedDef, joinD_env,
              Bool.or_eq_false_iff] at hflag ⊢
            exact (ihFloatF nm fop (fop acc g) env1 rest hflag.2).trans (henv1 hflag.1)
          · intro hflag
            simp only [st, ha, evalOut_mk_usedDef, evalOut_mk_env] at hflag ⊢
            exact henv1 hflag
          · intro hflag
            simp only [st, ha, evalOut_mk_usedDef, evalOut_mk_env] at hflag ⊢
            exact henv1 hflag
        · intro hflag
          simp only [st, ha, evalOut_mk_usedDef, evalOut_mk_env] at hflag ⊢
          exact henv1 hflag
        · intro hflag
          simp only [st, ha, evalOut_mk_usedDef, evalOut_mk_env] at hflag ⊢
          exact henv1 hflag
        · intro hflag
          simp only [st, ha, evalOut_mk_usedDef, evalOut_mk_env] at hflag ⊢
          exact henv1 hflag

/-! ## Claim C10 -/

/-- C10: evaluating any expression whose evaluation never applies the `def`
builtin (formally: whose ghost `usedDef` flag is `false`) returns the given
environment unchanged — structurally equal, so the symbol table of the
environment and of every environment reachable through its outer chain is
untouched.  Together with `def_`'s insert into the current environment and
the parameter binding into the fresh call frame `Env.mk binds (some env1)`
built inside `eval`, these are the only insertions the evaluator
performs. -/
theorem eval_no_def_preserves_env (n : Nat) (env : Env) (e : Expr)
    (h : (eval n env e).usedDef = false) : (eval n env e).env = env :=
  (noDef_master n).1 env e h

/-- Witness for C10: evaluating `(+ 1 (* 2 3))` in the default environment
applies no `def` and returns the default environment unchanged. -/
theorem eval_no_def_preserves_env_witness :
    (eval 10 Env.default
        (.List [.Symbol "+", .Integer 1,
          .List [.Symbol "*", .Integer 2, .Integer 3]])).env = Env.default :=
  eval_no_def_preserves_env 10 Env.default
    (.List [.Symbol "+", .Integer 1,
      .List [.Symbol "*", .Integer 2, .Integer 3]]) rfl

/-! ## Claim C2 -/

/-- Counterexample to C2: evaluating `(/ 1 0)` does not return a typed
error value — the underlying Rust `i64` division panics, aborting the
process (`Outcome.abort`, which is neither `ok` nor `err`). -/
theorem division_by_zero_aborts_counterexample :
    (eval 10 Env.default (.List [.Symbol "/", .Integer 1, .Integer 0])).out =
      .abort "attempt to divide by zero" := rfl

/-- C2 (amended): evaluation never aborts the process *except* through the
two Rust panics of `i64` division (divisor zero, or `i64::MIN / -1`): every
abort outcome of `eval`, for every expression, environment and stack budget,
carries one of those two panic messages; all other failures are ordinary
error values (or stack exhaustion from unbounded recursion). -/
theorem eval_aborts_only_in_integer_division
    (n : Nat) (env : Env) (e : Expr) (m : String)
    (h : (eval n env e).out = .abort m) :
    m = "attempt to divide by zero" ∨ m = "attempt to divide with overflow" :=
  (abort_master n).1 env e m h

/-- Witness for C2 (amended): the `(/ 1 0)` abort indeed carries a division
panic message. -/
theorem eval_aborts_only_in_integer_division_witness :
    (eval 10 Env.default (.List [.Symbol "/", .Integer 1, .Integer 0])).out =
      .abort "attempt to divide by zero" ∨
    ("attempt to divide by zero" = "attempt to divide by zero" ∨
      "attempt to divide by zero" = "attempt to divide with overflow") :=
  Or.inr (eval_aborts_only_in_integer_division 10 Env.default
    (.List [.Symbol "/", .Integer 1, .Integer 0]) "attempt to divide by zero" rfl)

/-! ## Claim C1 -/

/-- Counterexample to C1: after `(def x 5)`, `(def f (fn () x))`,
`(def x 10)`, the call `(f)` evaluates to `10` — the binding active in the
*caller's* environment at call time — and not to `5`, the value bound where
the closure was defined, as the claim states. -/
theorem closure_scope_counterexample :
    (eval 20 scenarioEnv (.List [.Symbol "f"])).out = .ok (.Integer 10) ∧
    (eval 20 scenarioEnv (.List [.Symbol "f"])).out ≠ .ok (.Integer 5) := by
  refine ⟨rfl, ?_⟩
  rw [show (eval 20 scenarioEnv (.List [.Symbol "f"])).out = .ok (.Integer 10) from rfl]
  intro h
  injection h with h1
  injection h1 with h2
  omega

/-- C1 (amended): When a user-defined closure is applied, the operator is
evaluated first (environment `env` to `env1`); after the arity check, each
argument expression is evaluated, left to right, in the caller's environment
(`bindParams` threads `env1` to `env2`), and the results are bound
positionally to the closure's parameter symbols in a fresh child environment
— but the child's outer link is the caller's environment `env1` as cloned at
call time, not an environment captured at closure creation: the closure value
stores no environment, so scoping is dynamic.  The closure body is then
evaluated in that child environment. -/
theorem closure_applied_with_callsite_outer
    (n : Nat) (env env1 env2 : Env) (fexpr : Expr) (args : List Expr)
    (params : List Expr) (body : Expr) (d1 d2 : Bool)
    (binds : List (Symbol × Value))
    (hf : eval n env fexpr = ⟨.ok (.Func (.UserDefined params body)), env1, d1⟩)
    (hlen : params.length = args.length)
    (hb : bindParams n env1 params args [] = ⟨.ok binds, env2, d2⟩) :
    eval (n + 1) env (.List (fexpr :: args)) =
      ⟨(eval n (Env.mk binds (some env1)) body).out, env2,
        d1 || d2 || (eval n (Env.mk binds (some env1)) body).usedDef⟩ := by
  rw [eval_list, hf]
  simp [hlen, hb]

/-- Witness for C1 (amended): in the scenario environment, `(f)` evaluates
the body `x` of the closure in a fresh frame whose outer link is the
*scenario* environment of the call site, yielding `10`. -/
theorem closure_applied_with_callsite_outer_witness :
    eval 20 scenarioEnv (.List [.Symbol "f"]) =
      ⟨(eval 19 (Env.mk [] (some scenarioEnv)) (.Symbol "x")).out, scenarioEnv,
        false || false || (eval 19 (Env.mk [] (some scenarioEnv)) (.Symbol "x")).usedDef⟩ ∧
    (eval 19 (Env.mk [] (some scenarioEnv)) (.Symbol "x")).out = .ok (.Integer 10) :=
  ⟨closure_applied_with_callsite_outer 19 scenarioEnv scenarioEnv scenarioEnv
    (.Symbol "f") [] [] (.Symbol "x") false false [] rfl rfl rfl, rfl⟩

/-! ## Claim C9 -/

/-- C9: Calling a user-defined closure with an argument count different from
its parameter count fails with the arity error before anything else happens:
the result is the error together with the environment exactly as it was
after evaluating the operator — for *every* argument list of that length, so
no argument expression is evaluated, no parameter is bound, the body is
never evaluated, and the caller's environment is unchanged by the failed
call. -/
theorem userDefined_arity_error
    (n : Nat) (env env1 : Env) (fexpr : Expr) (params : List Expr) (body : Expr) (d : Bool)
    (hf : eval n env fexpr = ⟨.ok (.Func (.UserDefined params body)), env1, d⟩)
    (args : List Expr) (hlen : params.length ≠ args.length) :
    eval (n + 1) env (.List (fexpr :: args)) =
      ⟨.err "Incorrect number of arguments provided", env1, d⟩ := by
  rw [eval_list, hf]
  simp [hlen]

/-- Witness for C9: calling `(fn (x y) x)` with one argument fails with the
arity error, leaving the default environment untouched. -/
theorem userDefined_arity_error_witness :
    eval 6 Env.default
        (.List [.List [.Symbol "fn", .List [.Symbol "x", .Symbol "y"], .Symbol "x"],
          .Integer 1]) =
      ⟨.err "Incorrect number of arguments provided", Env.default, false⟩ :=
  userDefined_arity_error 5 Env.default Env.default
    (.List [.Symbol "fn", .List [.Symbol "x", .Symbol "y"], .Symbol "x"])
    [.Symbol "x", .Symbol "y"] (.Symbol "x") false rfl [.Integer 1] (by decide)

/-! ## Claim C3 -/

/-- Counterexample to C3: applying `fn` to the parameter list `(1)` — a list
whose entry is not a symbol — does *not* fail at creation: it constructs and
returns the closure, with the non-symbol entry stored as a parameter. -/
theorem fn_accepts_nonsymbol_params_counterexample :
    (eval 10 Env.default (.List [.Symbol "fn", .List [.Integer 1], .Integer 0])).out =
      .ok (.Func (.UserDefined [.Integer 1] (.Integer 0))) := rfl

/-- C3 (amended): at creation time the `fn` builtin checks only the argument
count and that the first argument is a list — the entries of the list are
not inspected, and a closure is constructed whatever they are.  A non-symbol
entry is rejected only at application time: the parameter-binding loop fails
with the literal error `"..."` when it reaches the non-symbol parameter
(before evaluating the corresponding argument), as the concrete call
`((fn (1) 0) 5)` shows. -/
theorem fn_param_check_deferred_to_call (env : Env) (ps : List Expr) (b : Expr) :
    (∀ args : List Expr, args.length ≠ 2 →
      func env args = ⟨.err "'fn' takes 2 arguments only", env, false⟩) ∧
    (∀ a0 a1 : Expr, (∀ l : List Expr, a0 ≠ .List l) →
      func env [a0, a1] = ⟨.err "...", env, false⟩) ∧
    (func env [.List ps, b] = ⟨.ok (.Func (.UserDefined ps b)), env, false⟩) ∧
    (∀ (n : Nat) (env' : Env) (p : Expr) (ps' : List Expr) (a : Expr)
        (args : List Expr) (acc : List (Symbol × Value)),
      (∀ s : Symbol, p ≠ .Symbol s) →
      bindParams (n + 1) env' (p :: ps') (a :: args) acc =
        ⟨.fail (.err "..."), env', false⟩) ∧
    ((eval 10 Env.default
        (.List [.List [.Symbol "fn", .List [.Integer 1], .Integer 0],
          .Integer 5])).out = .err "...") := by
  refine ⟨?_, ?_, rfl, ?_, rfl⟩
  · intro args h
    rcases args with _ | ⟨a0, _ | ⟨a1, _ | ⟨a2, rest⟩⟩⟩ <;>
      first
        | rfl
        | exact absurd rfl h
  · intro a0 a1 h
    rcases a0 with b' | i | f | t | l
    · rfl
    · rfl
    · rfl
    · rfl
    · exact absurd rfl (h l)
  · intro n env' p ps' a args acc h
    rcases p with b' | i | f | t | l
    · rfl
    · rfl
    · rfl
    · exact absurd rfl (h t)
    · rfl

/-- Witness for C3 (amended): the closure `(fn (1) 0)` is created without
error, and its application fails at binding time with the literal error. -/
theorem fn_param_check_deferred_to_call_witness :
    func Env.default [.List [.Integer 1], .Integer 0] =
        ⟨.ok (.Func (.UserDefined [.Integer 1] (.Integer 0))), Env.default, false⟩ ∧
    bindParams 10 Env.default [.Integer 1] [.Integer 5] [] =
        ⟨.fail (.err "..."), Env.default, false⟩ :=
  ⟨(fn_param_check_deferred_to_call Env.default [.Integer 1] (.Integer 0)).2.2.1,
   (fn_param_check_deferred_to_call Env.default [.Integer 1] (.Integer 0)).2.2.2.1
     9 Env.default (.Integer 1) [] (.Integer 5) [] []
     (fun s h => by injection h)⟩

/-! ## Claim C4 -/

/-- Counterexample to C4: `(< 1 2 3)` has three arguments, yet the `<`
builtin does not fail — it returns `true`, silently ignoring the third
argument. -/
theorem less_than_extra_args_counterexample :
    (eval 10 Env.default
        (.List [.Symbol "<", .Integer 1, .Integer 2, .Integer 3])).out =
      .ok (.Bool true) := rfl

/-- C4 (amended): the `<` builtin errors only when given *fewer than two*
arguments; given two or more it evaluates exactly the first two (any further
arguments are ignored and never evaluated — the result below does not depend
on `rest`), requires both to be `Integer` or both `Float`, and returns the
boolean result of strict less-than; mixed or non-numeric operands are
errors. -/
theorem less_than_uses_first_two_args
    (n : Nat) (env env1 env2 : Env) (a0 a1 : Expr) (rest : List Expr)
    (i j : Int) (f g : Rat) (v : Value) (d d2 : Bool) :
    (∀ args : List Expr, args.length < 2 →
      less_than (n + 1) env args =
        ⟨.err "Cannot apply '<' to fewer than 2 arguments", env, false⟩) ∧
    (eval n env a0 = ⟨.ok (.Integer i), env1, d⟩ →
      eval n env1 a1 = ⟨.ok (.Integer j), env2, d2⟩ →
      less_than (n + 1) env (a0 :: a1 :: rest) =
        ⟨.ok (.Bool (decide (i < j))), env2, d || d2⟩) ∧
    (eval n env a0 = ⟨.ok (.Float f), env1, d⟩ →
      eval n env1 a1 = ⟨.ok (.Float g), env2, d2⟩ →
      less_than (n + 1) env (a0 :: a1 :: rest) =
        ⟨.ok (.Bool (decide (f < g))), env2, d || d2⟩) ∧
    (eval n env a0 = ⟨.ok (.Integer i), env1, d⟩ →
      eval n env1 a1 = ⟨.ok (.Float g), env2, d2⟩ →
      less_than (n + 1) env (a0 :: a1 :: rest) =
        ⟨.err ("Cannot compare integer '" ++ fmtValue (.Integer i) ++
          "' with non-integer '" ++ fmtValue (.Float g) ++ "'"), env2, d || d2⟩) ∧
    (eval n env a0 = ⟨.ok (.Float f), env1, d⟩ →
      eval n env1 a1 = ⟨.ok (.Integer j), env2, d2⟩ →
      less_than (n + 1) env (a0 :: a1 :: rest) =
        ⟨.err ("Cannot compare float '" ++ fmtValue (.Float f) ++
          "' with non-float '" ++ fmtValue (.Integer j) ++ "'"), env2, d || d2⟩) ∧
    (eval n env a0 = ⟨.ok v, env1, d⟩ →
      (∀ i' : Int, v ≠ .Integer i') → (∀ f' : Rat, v ≠ .Float f') →
      less_than (n + 1) env (a0 :: a1 :: rest) =
        ⟨.err ("Cannot use value '" ++ fmtValue v ++ "' for comparison"),
          env1, d⟩) := by
  have step : less_than (n + 1) env (a0 :: a1 :: rest) =
      match eval n env a0 with
      | ⟨.ok (.Integer i), env1, d⟩ =>
        match eval n env1 a1 with
        | ⟨.ok (.Integer j), env2, d2⟩ => ⟨.ok (.Bool (decide (i < j))), env2, d || d2⟩
        | ⟨.ok v, env2, d2⟩ =>
          ⟨.err ("Cannot compare integer '" ++ fmtValue (.Integer i) ++
            "' with non-integer '" ++ fmtValue v ++ "'"), env2, d || d2⟩
        | r => joinD d r
      | ⟨.ok (.Float f), env1, d⟩ =>
        match eval n env1 a1 with
        | ⟨.ok (.Float g), env2, d2⟩ => ⟨.ok (.Bool (decide (f < g))), env2, d || d2⟩
        | ⟨.ok v, env2, d2⟩ =>
          ⟨.err ("Cannot compare float '" ++ fmtValue (.Float f) ++
            "' with non-float '" ++ fmtValue v ++ "'"), env2, d || d2⟩
        | r => joinD d r
      | ⟨.ok v, env1, d⟩ =>
        ⟨.err ("Cannot use value '" ++ fmtValue v ++ "' for comparison"), env1, d⟩
      | r => r := rfl
  refine ⟨?_, ?_, ?_, ?_, ?_, ?_⟩
  · intro args h
    rcases args with _ | ⟨x, _ | ⟨y, zs⟩⟩
    · rfl
    · rfl
    · simp at h
      omega
  · intro h0 h1
    simp only [step, h0, h1]
  · intro h0 h1
    simp only [step, h0, h1]
  · intro h0 h1
    simp only [step, h0, h1]
  · intro h0 h1
    simp only [step, h0, h1]
  · intro h0 hi hf
    rcases v with b' | i' | f' | l | fn
    · simp only [step, h0]
    · exact absurd rfl (hi i')
    · exact absurd rfl (hf f')
    · simp only [step, h0]
    · simp only [step, h0]

/-- Witness for C4 (amended): `1 < 2` with a third argument present still
evaluates, ignoring it. -/
theorem less_than_uses_first_two_args_witness :
    less_than 10 Env.default [.Integer 1, .Integer 2, .Integer 3] =
      ⟨.ok (.Bool (decide ((1 : Int) < 2))), Env.default, false || false⟩ :=
  (less_than_uses_first_two_args 9 Env.default Env.default Env.default
    (.Integer 1) (.Integer 2) [.Integer 3] 1 2 0 0 (.Bool true) false false).2.1
    rfl rfl

/-! ## Claim C5 -/

/-- Counterexample to C5: `(= 1 2 1.0)` returns `false` instead of failing
with a type error — the comparison loop breaks at the first unequal value
and never type-checks (or even evaluates) the remaining arguments, as
`(= 1 2 qq)` with the unbound symbol `qq` also shows. -/
theorem equals_mismatch_after_inequality_counterexample :
    (eval 10 Env.default
        (.List [.Symbol "=", .Integer 1, .Integer 2, .Float 1])).out =
      .ok (.Bool false) ∧
    (eval 10 Env.default
        (.List [.Symbol "=", .Integer 1, .Integer 2, .Symbol "qq"])).out =
      .ok (.Bool false) := ⟨rfl, rfl⟩

/-- C5 (amended): `=` errors on fewer than two arguments; otherwise the
first argument's evaluated scalar type selects the comparison loop, and the
remaining arguments are evaluated left to right *only until the first
unequal value*: at that point the loop returns `false` immediately, without
evaluating or type-checking the remaining arguments (the `rest` below is
arbitrary).  A type mismatch is an error only when a differently-typed
argument is reached before any inequality; `(= 1 1 1)` is true, `(= 1 1 2)`
is false, and `(= 1 1.0)` is a type error. -/
theorem equals_scans_until_mismatch
    (n : Nat) (env env1 : Env) (a0 a1 a : Expr) (i j : Int) (d : Bool) :
    (∀ args : List Expr, args.length < 2 →
      equals (n + 1) env args =
        ⟨.err "Cannot apply '=' to fewer than 2 arguments", env, false⟩) ∧
    (∀ rest : List Expr, eval n env a0 = ⟨.ok (.Integer i), env, d⟩ →
      equals (n + 1) env (a0 :: a1 :: rest) = joinD d (eqLoopI n i env (a1 :: rest))) ∧
    (eqLoopI (n + 1) i env [] = ⟨.ok (.Bool true), env, false⟩) ∧
    (eval n env a = ⟨.ok (.Integer j), env1, d⟩ → i ≠ j →
      ∀ rest : List Expr,
        eqLoopI (n + 1) i env (a :: rest) = ⟨.ok (.Bool false), env1, d⟩) ∧
    (eval n env a = ⟨.ok (.Integer j), env1, d⟩ → i = j →
      ∀ rest : List Expr,
        eqLoopI (n + 1) i env (a :: rest) = joinD d (eqLoopI n i env1 rest)) ∧
    (∀ g : Rat, eval n env a = ⟨.ok (.Float g), env1, d⟩ →
      ∀ rest : List Expr,
        eqLoopI (n + 1) i env (a :: rest) =
          ⟨.err ("Non-integer '" ++ fmtValue (.Float g) ++ "' found in integer equals"),
            env1, d⟩) ∧
    ((eval 10 Env.default
        (.List [.Symbol "=", .Integer 1, .Integer 1, .Integer 1])).out =
      .ok (.Bool true)) ∧
    ((eval 10 Env.default
        (.List [.Symbol "=", .Integer 1, .Integer 1, .Integer 2])).out =
      .ok (.Bool false)) ∧
    ((eval 10 Env.default (.List [.Symbol "=", .Integer 1, .Float 1])).out =
      .err ("Non-integer '" ++ fmtValue (.Float 1) ++ "' found in integer equals")) := by
  have step : ∀ (i : Int) (env : Env) (a : Expr) (rest : List Expr),
      eqLoopI (n + 1) i env (a :: rest) =
        match eval n env a with
        | ⟨.ok (.Integer j), env1, d⟩ =>
          if i = j then joinD d (eqLoopI n i env1 rest)
          else ⟨.ok (.Bool false), env1, d⟩
        | ⟨.ok v, env1, d⟩ =>
          ⟨.err ("Non-integer '" ++ fmtValue v ++ "' found in integer equals"), env1, d⟩
        | r => r := fun _ _ _ _ => rfl
  refine ⟨?_, ?_, rfl, ?_, ?_, ?_, rfl, rfl, rfl⟩
  · intro args h
    rcases args with _ | ⟨x, _ | ⟨y, zs⟩⟩
    · rfl
    · rfl
    · simp at h
      omega
  · intro rest h0
    have st2 : equals (n + 1) env (a0 :: a1 :: rest) =
        match eval n env a0 with
        | ⟨.ok (.Bool b), env1, d⟩ => joinD d (eqLoopB n b env1 (a1 :: rest))
        | ⟨.ok (.Integer i), env1, d⟩ => joinD d (eqLoopI n i env1 (a1 :: rest))
        | ⟨.ok (.Float f), env1, d⟩ => joinD d (eqLoopF n f env1 (a1 :: rest))
        | ⟨.ok _, env1, d⟩ =>
          ⟨.err "Must apply '=' to numeric or boolean types", env1, d⟩
        | r => r := rfl
    simp only [st2, h0]
  · intro h hne rest
    simp only [step, h, if_neg hne]
  · intro h heq rest
    simp only [step, h, if_pos heq]
  · intro g h rest
    simp only [step, h]

/-- Witness for C5 (amended): `(= 1 2 1.0)` dispatches to the integer loop,
which stops at `2` with `false`, never reaching the float. -/
theorem equals_scans_until_mismatch_witness :
    equals 10 Env.default [.Integer 1, .Integer 2, .Float 1] =
        joinD false (eqLoopI 9 1 Env.default [.Integer 2, .Float 1]) ∧
    eqLoopI 9 1 Env.default [.Integer 2, .Float 1] =
        ⟨.ok (.Bool false), Env.default, false⟩ :=
  ⟨(equals_scans_until_mismatch 9 Env.default Env.default (.Integer 1) (.Integer 2)
      (.Integer 0) 1 0 false).2.1 [.Float 1] rfl,
   (equals_scans_until_mismatch 8 Env.default Env.default (.Integer 1) (.Integer 2)
      (.Integer 2) 1 2 false).2.2.2.1 rfl (by decide) [.Float 1]⟩

/-! ## Claim C7 -/

/-- C7: each arithmetic builtin shares the `arithmetic_builtin!` body: zero
arguments are an error; the first argument's evaluated type (`Integer` or
`Float`) fixes the required type of every further argument; the operation is
left-folded starting from the first value (stated over literal argument
lists via the monadic left fold `List.foldlM`); a differently-typed argument
is an error when reached, and a non-numeric first argument is an error — no
implicit conversion anywhere. -/
theorem arithmetic_same_type_left_fold
    (n : Nat) (env env1 : Env) (opStr nm : String)
    (iop : Int → Int → Except String Int) (fop : Rat → Rat → Rat)
    (a0 : Expr) (rest : List Expr) (i : Int) (f : Rat) (v : Value) (d : Bool) :
    (arithmetic (n + 1) opStr nm iop fop env [] =
      ⟨.err ("Cannot apply '" ++ opStr ++ "' to zero arguments"), env, false⟩) ∧
    (eval n env a0 = ⟨.ok (.Integer i), env1, d⟩ →
      arithmetic (n + 1) opStr nm iop fop env (a0 :: rest) =
        joinD d (intFold n nm iop i env1 rest)) ∧
    (eval n env a0 = ⟨.ok (.Float f), env1, d⟩ →
      arithmetic (n + 1) opStr nm iop fop env (a0 :: rest) =
        joinD d (floatFold n nm fop f env1 rest)) ∧
    (eval n env a0 = ⟨.ok v, env1, d⟩ →
      (∀ i' : Int, v ≠ .Integer i') → (∀ f' : Rat, v ≠ .Float f') →
      arithmetic (n + 1) opStr nm iop fop env (a0 :: rest) =
        ⟨.err "Must apply '+' to numeric types", env1, d⟩) ∧
    (∀ (js : List Int) (m : Nat) (acc : Int) (env' : Env), js.length < m →
      intFold m nm iop acc env' (js.map .Integer) =
        match List.foldlM iop acc js with
        | .ok r => ⟨.ok (.Integer r), env', false⟩
        | .error msg => ⟨.abort msg, env', false⟩) ∧
    (∀ (qs : List Rat) (m : Nat) (acc : Rat) (env' : Env), qs.length < m →
      floatFold m nm fop acc env' (qs.map .Float) =
        ⟨.ok (.Float (qs.foldl fop acc)), env', false⟩) ∧
    (∀ (q : Rat) (rest' : List Expr) (acc : Int) (env' : Env) (m : Nat),
      intFold (m + 2) nm iop acc env' (.Float q :: rest') =
        ⟨.err ("Non-integer '" ++ fmtValue (.Float q) ++ "' found in integer " ++ nm),
          env', false⟩) ∧
    (∀ (i' : Int) (rest' : List Expr) (acc : Rat) (env' : Env) (m : Nat),
      floatFold (m + 2) nm fop acc env' (.Integer i' :: rest') =
        ⟨.err ("Non-float '" ++ fmtValue (.Integer i') ++ "' found in float " ++ nm),
          env', false⟩) ∧
    (∀ args : List Expr, eval (n + 2) Env.default (.List (.Symbol "+" :: args)) =
      joinD false (arithmetic (n + 1) "+" "addition" addI addF Env.default args)) ∧
    (∀ args : List Expr, eval (n + 2) Env.default (.List (.Symbol "-" :: args)) =
      joinD false (arithmetic (n + 1) "-" "subtraction" subI subF Env.default args)) ∧
    (∀ args : List Expr, eval (n + 2) Env.default (.List (.Symbol "*" :: args)) =
      joinD false (arithmetic (n + 1) "*" "multiplication" mulI mulF Env.default args)) ∧
    (∀ args : List Expr, eval (n + 2) Env.default (.List (.Symbol "/" :: args)) =
      joinD false (arithmetic (n + 1) "/" "division" divI divF Env.default args)) := by
  have step : ∀ (a0 : Expr) (rest : List Expr),
      arithmetic (n + 1) opStr nm iop fop env (a0 :: rest) =
        match eval n env a0 with
        | ⟨.ok (.Integer i), env1, d⟩ => joinD d (intFold n nm iop i env1 rest)
        | ⟨.ok (.Float f), env1, d⟩ => joinD d (floatFold n nm fop f env1 rest)
        | ⟨.ok _, env1, d⟩ => ⟨.err "Must apply '+' to numeric types", env1, d⟩
        | r => r := fun _ _ => rfl
  refine ⟨rfl, ?_, ?_, ?_, ?_, ?_, ?_, ?_, fun _ => rfl, fun _ => rfl, fun _ => rfl,
    fun _ => rfl⟩
  · intro h0
    simp only [step, h0]
  · intro h0
    simp only [step, h0]
  · intro h0 hi hf
    rcases v with b' | i' | f' | l | fn
    · simp only [step, h0]
    · exact absurd rfl (hi i')
    · exact absurd rfl (hf f')
    · simp only [step, h0]
    · simp only [step, h0]
  · intro js
    induction js with
    | nil =>
      intro m acc env' h
      rcases m with _ | k
      · omega
      · rfl
    | cons j js ih =>
      intro m acc env' h
      rcases m with _ | k
      · omega
      rcases k with _ | k0
      · simp only [List.length_cons] at h
        omega
      have st : intFold (k0 + 1 + 1) nm iop acc env'
            (List.map Expr.Integer (j :: js)) =
          match iop acc j with
          | .ok r => joinD false (intFold (k0 + 1) nm iop r env' (js.map .Integer))
          | .error msg => ⟨.abort msg, env', false⟩ := rfl
      rcases hop : iop acc j with msg | r
      · rw [st, List.foldlM_cons, hop]
        rfl
      · rw [st, List.foldlM_cons, hop]
        exact ih (k0 + 1) r env'
          (by simp only [List.length_cons] at h; omega)
  · intro qs
    induction qs with
    | nil =>
      intro m acc env' h
      rcases m with _ | k
      · omega
      · rfl
    | cons q qs ih =>
      intro m acc env' h
      rcases m with _ | k
      · omega
      rcases k with _ | k0
      · simp only [List.length_cons] at h
        omega
      have st : floatFold (k0 + 1 + 1) nm fop acc env'
            (List.map Expr.Float (q :: qs)) =
          joinD false (floatFold (k0 + 1) nm fop (fop acc q) env' (qs.map .Float)) := rfl
      rw [st, List.foldl_cons]
      exact ih (k0 + 1) (fop acc q) env'
        (by simp only [List.length_cons] at h; omega)
  · intro q rest' acc env' m
    rfl
  · intro i' rest' acc env' m
    rfl

/-- Witness for C7: `(+ 1 2 3)` dispatches to the shared arithmetic body,
folds to `6`, and the three other operators behave likewise; `(+ 1 2.0)`
fails with the type-mismatch error, with no implicit conversion. -/
theorem arithmetic_same_type_left_fold_witness :
    arithmetic 9 "+" "addition" addI addF Env.default
        [.Integer 1, .Integer 2, .Integer 3] =
      joinD false (intFold 8 "addition" addI 1 Env.default [.Integer 2, .Integer 3]) ∧
    intFold 9 "addition" addI 1 Env.default [.Integer 2, .Integer 3] =
        ⟨.ok (.Integer 6), Env.default, false⟩ ∧
    (eval 10 Env.default
        (.List [.Symbol "+", .Integer 1, .Integer 2, .Integer 3])).out =
      .ok (.Integer 6) ∧
    (eval 10 Env.default
        (.List [.Symbol "-", .Integer 10, .Integer 2, .Integer 3])).out =
      .ok (.Integer 5) ∧
    (eval 10 Env.default
        (.List [.Symbol "*", .Integer 2, .Integer 3, .Integer 4])).out =
      .ok (.Integer 24) ∧
    (eval 10 Env.default
        (.List [.Symbol "/", .Integer 12, .Integer 3, .Integer 2])).out =
      .ok (.Integer 2) ∧
    (eval 10 Env.default (.List [.Symbol "+", .Integer 1, .Float 2])).out =
      .err "Non-integer '2' found in integer addition" :=
  ⟨(arithmetic_same_type_left_fold 8 Env.default Env.default "+" "addition" addI addF
      (.Integer 1) [.Integer 2, .Integer 3] 1 0 (.Bool true) false).2.1 rfl,
   (arithmetic_same_type_left_fold 8 Env.default Env.default "+" "addition" addI addF
      (.Integer 1) [.Integer 2, .Integer 3] 1 0 (.Bool true) false).2.2.2.2.1
      [2, 3] 9 1 Env.default (by decide),
   rfl, rfl, rfl, rfl, rfl⟩

/-! ## Claim C6 -/

/-- C6: The `if` builtin with an argument count other than 3 errors; with
exactly three arguments it evaluates only the condition, which must yield a
`Bool`; if the condition is `true` the result is that of evaluating the
second argument (for every third argument, which is therefore never
evaluated), symmetrically for `false`; a non-boolean condition is an
error. -/
theorem ifdef_lazy_branches
    (n : Nat) (env env1 : Env) (c t e : Expr) (d : Bool) :
    (∀ args : List Expr, args.length ≠ 3 →
      ifdef (n + 1) env args = ⟨.err "'if' takes 3 arguments", env, false⟩) ∧
    (eval n env c = ⟨.ok (.Bool true), env1, d⟩ →
      ifdef (n + 1) env [c, t, e] = joinD d (eval n env1 t)) ∧
    (eval n env c = ⟨.ok (.Bool false), env1, d⟩ →
      ifdef (n + 1) env [c, t, e] = joinD d (eval n env1 e)) ∧
    (∀ v : Value, eval n env c = ⟨.ok v, env1, d⟩ → (∀ b : Bool, v ≠ .Bool b) →
      ifdef (n + 1) env [c, t, e] =
        ⟨.err "Condition in 'if' must evaluate to a boolean value", env1, d⟩) := by
  refine ⟨?_, ?_, ?_, ?_⟩
  · intro args h
    rcases args with _ | ⟨a, _ | ⟨b, _ | ⟨c', _ | ⟨x, rest⟩⟩⟩⟩ <;>
      first
        | rfl
        | exact absurd rfl h
  · intro h
    show (match eval n env c with
      | ⟨.ok (.Bool true), env1, d⟩ => joinD d (eval n env1 t)
      | ⟨.ok (.Bool false), env1, d⟩ => joinD d (eval n env1 e)
      | ⟨.ok _, env1, d⟩ =>
        ⟨.err "Condition in 'if' must evaluate to a boolean value", env1, d⟩
      | r => r) = joinD d (eval n env1 t)
    rw [h]
  · intro h
    show (match eval n env c with
      | ⟨.ok (.Bool true), env1, d⟩ => joinD d (eval n env1 t)
      | ⟨.ok (.Bool false), env1, d⟩ => joinD d (eval n env1 e)
      | ⟨.ok _, env1, d⟩ =>
        ⟨.err "Condition in 'if' must evaluate to a boolean value", env1, d⟩
      | r => r) = joinD d (eval n env1 e)
    rw [h]
  · intro v h hv
    show (match eval n env c with
      | ⟨.ok (.Bool true), env1, d⟩ => joinD d (eval n env1 t)
      | ⟨.ok (.Bool false), env1, d⟩ => joinD d (eval n env1 e)
      | ⟨.ok _, env1, d⟩ =>
        ⟨.err "Condition in 'if' must evaluate to a boolean value", env1, d⟩
      | r => r) = ⟨.err "Condition in 'if' must evaluate to a boolean value", env1, d⟩
    rw [h]
    rcases v with b | i | f | l | fn
    · exact absurd rfl (hv b)
    · rfl
    · rfl
    · rfl
    · rfl

/-- Witness for C6: with a true condition, the untaken branch is the unbound
symbol `qq`, whose evaluation would fail — yet the result is `1`. -/
theorem ifdef_lazy_branches_witness :
    ifdef 10 Env.default [.Bool true, .Integer 1, .Symbol "qq"] =
        joinD false (eval 9 Env.default (.Integer 1)) ∧
    ifdef 10 Env.default [.Bool true, .Integer 1, .Symbol "qq"] =
        ⟨.ok (.Integer 1), Env.default, false⟩ :=
  ⟨(ifdef_lazy_branches 9 Env.default Env.default (.Bool true) (.Integer 1)
      (.Symbol "qq") false).2.1 rfl, rfl⟩

/-! ## Claim C8 -/

/-- C8: The `def` builtin errors on an argument count other than 2 and on a
non-symbol (unevaluated) first argument; otherwise it evaluates the second
argument in the current environment, binds the result to the symbol in the
current environment, and returns the sentinel integer 0.  A lookup of the
symbol in the updated environment returns the just-bound value, and a second
insert of the same name overwrites the binding. -/
theorem def_binds_current_env
    (n : Nat) (env env1 : Env) (s : Symbol) (a : Expr) (v : Value) (d : Bool) :
    (∀ args : List Expr, args.length ≠ 2 →
      def_ (n + 1) env args = ⟨.err "'def' takes 2 arguments only", env, true⟩) ∧
    (∀ a0 a1 : Expr, (∀ t : Symbol, a0 ≠ .Symbol t) →
      def_ (n + 1) env [a0, a1] =
        ⟨.err "First argument to 'def' must be a symbol", env, true⟩) ∧
    (eval n env a = ⟨.ok v, env1, d⟩ →
      def_ (n + 1) env [.Symbol s, a] = ⟨.ok (.Integer 0), env1.insert s v, true⟩) ∧
    ((env.insert s v).get s = some v) ∧
    (∀ w : Value, ((env.insert s v).insert s w).get s = some w) := by
  refine ⟨?_, ?_, ?_, ?_, ?_⟩
  · intro args h
    rcases args with _ | ⟨a0, _ | ⟨a1, _ | ⟨a2, rest⟩⟩⟩ <;>
      first
        | rfl
        | exact absurd rfl h
  · intro a0 a1 h
    rcases a0 with b | i | f | t | l
    · rfl
    · rfl
    · rfl
    · exact absurd rfl (h t)
    · rfl
  · intro h
    show (match eval n env a with
      | ⟨.ok v, env1, _⟩ => ⟨.ok (.Integer 0), env1.insert s v, true⟩
      | ⟨o, env1, _⟩ => ⟨o, env1, true⟩ : EvalOut) =
        ⟨.ok (.Integer 0), env1.insert s v, true⟩
    rw [h]
  · rcases env with ⟨data, outer⟩
    simp [Env.insert, Env.get, lookupData]
  · intro w
    rcases env with ⟨data, outer⟩
    simp [Env.insert, Env.get, lookupData]

/-- Witness for C8: `(def x 5)` in the default environment binds `x` to `5`,
returns `0`, the lookup finds `5`, and rebinding overwrites. -/
theorem def_binds_current_env_witness :
    def_ 10 Env.default [.Symbol "x", .Integer 5] =
        ⟨.ok (.Integer 0), Env.default.insert "x" (.Integer 5), true⟩ ∧
    (Env.default.insert "x" (.Integer 5)).get "x" = some (.Integer 5) ∧
    ((Env.default.insert "x" (.Integer 5)).insert "x" (.Integer 10)).get "x" =
        some (.Integer 10) ∧
    (eval 20 Env.default (.List [.Symbol "def", .Symbol "x", .Integer 5])).env =
        Env.default.insert "x" (.Integer 5) :=
  ⟨(def_binds_current_env 9 Env.default Env.default "x" (.Integer 5) (.Integer 5)
      false).2.2.1 rfl,
   (def_binds_current_env 9 Env.default Env.default "x" (.Integer 5) (.Integer 5)
      false).2.2.2.1,
   (def_binds_current_env 9 Env.default Env.default "x" (.Integer 5) (.Integer 5)
      false).2.2.2.2 (.Integer 10),
   rfl⟩

end Lisp
